import Mathlib

/-!
Verification development for the rebalancing decision & execution engine
of `awsVolTrade.py`.

The Python source is shallowly embedded below.  Exchange money amounts,
prices and quantities are modelled as exact rationals (`ℚ`); the Python
floats of the source are idealized as exact arithmetic.  The exchange
itself (order submission, status polling, account balances) is modelled
as an oracle supplied as input: each submitted order is keyed by its
ticker, and the oracle yields whether the submission returned a handle
and the terminal status fields (`executed_volume`, `paid_fee`, `price`)
that the fill-polling loop eventually observes.  The unbounded polling
loop of the source is modelled by its observable effect: a poll event in
the cycle's event trace followed by a read of the terminal status.
-/

namespace VolTrade

/-- The configured basket, `TICKERS` in the source. -/
def TICKERS : List String := ["KRW-BTC", "KRW-XRP", "KRW-MANA"]

/-- Minimum order value in KRW, `MIN_ORDER` in the source. -/
def MIN_ORDER : ℚ := 5000

/-- Fee rate 0.05%, `FEE_RATE` in the source. -/
def FEE_RATE : ℚ := 5 / 10000

/-- Per-asset minimal tradable increment, the `ORDER_UNITS` dict of the
source; `none` models a key absent from the dict. -/
def ORDER_UNITS : String → Option ℚ := fun a =>
  if a = "BTC" then some (1 / 1000000)
  else if a = "XRP" then some (1 / 10)
  else if a = "MANA" then some (1 / 10)
  else none

/-- `t.split('-', 1)[1]` of the source: everything after the first
hyphen (later hyphens are kept, matching `maxsplit = 1`). -/
def assetOf (t : String) : String :=
  ⟨(t.data.dropWhile (fun c => c ≠ '-')).drop 1⟩

/-- Python `int(x)` truncation toward zero. -/
def pyInt (q : ℚ) : ℤ := if 0 ≤ q then ⌊q⌋ else ⌈q⌉

/-- `(price // tick) * tick` of the source: floor `price` to a multiple
of `tick`. -/
def tickFloor (price tick : ℚ) : ℚ := ⌊price / tick⌋ * tick

/-- The tick granularity of the price band of `price`: the step table of
`get_tick_price`, first threshold `≤ price` wins, with the
`0.00000001` fallthrough for prices below every threshold. -/
def bandTick (price : ℚ) : ℚ :=
  if 2000000 ≤ price then 1000
  else if 1000000 ≤ price then 500
  else if 500000 ≤ price then 100
  else if 100000 ≤ price then 50
  else if 10000 ≤ price then 10
  else if 1000 ≤ price then 1
  else if 100 ≤ price then 1 / 10
  else if 10 ≤ price then 1 / 100
  else if 1 ≤ price then 1 / 1000
  else if 1 / 10 ≤ price then 1 / 10000
  else if 1 / 100 ≤ price then 1 / 100000
  else if 1 / 1000 ≤ price then 1 / 1000000
  else if 1 / 10000 ≤ price then 1 / 10000000
  else 1 / 100000000

/-- `get_tick_price` of the source: the loop over the step table returns
on the first threshold `≤ price`, flooring to that band's tick; prices
below every threshold fall through to `floor(price / 1e-8) * 1e-8`. -/
def get_tick_price (price : ℚ) : ℚ :=
  if 2000000 ≤ price then tickFloor price 1000
  else if 1000000 ≤ price then tickFloor price 500
  else if 500000 ≤ price then tickFloor price 100
  else if 100000 ≤ price then tickFloor price 50
  else if 10000 ≤ price then tickFloor price 10
  else if 1000 ≤ price then tickFloor price 1
  else if 100 ≤ price then tickFloor price (1 / 10)
  else if 10 ≤ price then tickFloor price (1 / 100)
  else if 1 ≤ price then tickFloor price (1 / 1000)
  else if 1 / 10 ≤ price then tickFloor price (1 / 10000)
  else if 1 / 100 ≤ price then tickFloor price (1 / 100000)
  else if 1 / 1000 ≤ price then tickFloor price (1 / 1000000)
  else if 1 / 10000 ≤ price then tickFloor price (1 / 10000000)
  else tickFloor price (1 / 100000000)

/-- Pandas `close.pct_change()` on the list of closes: first entry is
missing (`none`), then successive relative changes. -/
def pct_change (closes : List ℚ) : List (Option ℚ) :=
  match closes with
  | [] => []
  | _ :: _ =>
    none :: (closes.zip closes.tail).map (fun pr => some ((pr.2 - pr.1) / pr.1))

/-- Sample variance with Bessel's correction (`ddof = 1`), as used by
pandas `std` squared. -/
def sampleVar (xs : List ℚ) : ℚ :=
  ((xs.map (fun x => (x - xs.sum / (xs.length : ℚ)) ^ 2)).sum) / ((xs.length : ℚ) - 1)

/-- `df.pct_change().rolling(20).std().iloc[-1]` of `calculate_weight`:
the sample standard deviation of the last 20 percentage changes, missing
(`none`, pandas `NaN`) when the series is shorter than 20 or the window
contains the leading missing change (pandas `min_periods` equals the
window size). -/
noncomputable def rollingStdLast (closes : List ℚ) : Option ℝ :=
  if (pct_change closes).length < 20 then none
  else if ((pct_change closes).drop ((pct_change closes).length - 20)).all Option.isSome then
    some (Real.sqrt
      ((sampleVar (((pct_change closes).drop ((pct_change closes).length - 20)).reduceOption) : ℚ) : ℝ))
  else none

/-- `1/vol if pd.notna(vol) and vol>0 else 0` of `calculate_weight`. -/
noncomputable def invVolScore (closes : List ℚ) : ℝ :=
  match rollingStdLast closes with
  | some v => if 0 < v then 1 / v else 0
  | none => 0

/-- `total = sum(inv_vols)` of `calculate_weight`. -/
noncomputable def invVolTotal (histories : List (List ℚ)) : ℝ :=
  (histories.map invVolScore).sum

/-- `calculate_weight` of the source, abstracted over the per-ticker
price histories fetched from the exchange: inverse-volatility scores
normalized by their sum, all zero when the sum is zero. -/
noncomputable def calculate_weight (histories : List (List ℚ)) : List ℝ :=
  (histories.map invVolScore).map
    (fun v => if 0 < invVolTotal histories then v / invVolTotal histories else 0)

/-- Exchange oracle entry for one submitted order (keyed by ticker):
whether the submission response carried a `uuid`, and the
`executed_volume`, `paid_fee` and `price` fields of the terminal status
that the polling loop eventually observes. -/
structure Fill where
  ok : Bool
  executed : ℚ
  fee : ℚ
  price : ℚ
deriving DecidableEq

/-- One entry of the `actions` list built by the planning loop of
`rebalance`. -/
structure Action where
  ticker : String
  asset : String
  diff_qty : ℚ
  diff_krw : ℚ
deriving DecidableEq

/-- One entry of the `records` list of `rebalance` (the timestamp string
is dropped: it is constant within a cycle). -/
structure LedgerRec where
  ticker : String
  action : String
  price : ℚ
  qty : ℚ
  fee : ℚ
  cash_after : ℚ
  pv : ℚ
deriving DecidableEq

/-- Observable events of one rebalance cycle, in program order.
`skipPrint` is the below-minimum-order console line; `submitBuy` records
the submitted quantity, the notional KRW amount passed as the order's
`price` parameter (`str(int(spend))`), and the cash balance at
submission time; `saveState` would mark a call to `save_state` (the
source's `rebalance` never makes one). -/
inductive Ev where
  | skipPrint (t : String)
  | submitSell (t : String) (vol : ℚ)
  | pollSell (t : String)
  | reconcileSell (t : String)
  | submitBuy (t : String) (qty : ℚ) (notional : ℤ) (cashAt : ℚ)
  | pollBuy (t : String)
  | reconcileBuy (t : String)
  | saveState
deriving DecidableEq

/-- Pointwise update of a total map, modelling a Python dict
assignment. -/
def upd (f : String → ℚ) (k : String) (v : ℚ) : String → ℚ :=
  fun x => if x = k then v else f x

/-- Inputs of one `rebalance` cycle: the balances returned by
`load_state` (keyed `"KRW"` for cash and by ticker otherwise), the live
prices per ticker, the weights `calculate_weight` produced for each
ticker, and the exchange oracle for submitted orders. -/
structure RebInput where
  state : String → ℚ
  prices : String → ℚ
  weights : String → ℚ
  fills : String → Fill

/-- Outputs of one `rebalance` cycle: final quantities dict (keyed by
asset), final cash, the ledger `records`, and the event trace. -/
structure RebResult where
  qtys : String → ℚ
  cash : ℚ
  records : List LedgerRec
  trace : List Ev

/-- The `quantities` dict built at the top of `rebalance`:
`{t.split('-',1)[1]: state.get(t, 0.0) for t in TICKERS}`, with absent
keys reading as `0` (`quantities.get(asset, 0.0)`). -/
def quantities0 (state : String → ℚ) : String → ℚ :=
  fun a =>
    match TICKERS.find? (fun t => assetOf t = a) with
    | some t => state t
    | none => 0

/-- `portfolio_value` of `rebalance`: cash plus holdings valued at the
raw live prices (`prices[f"KRW-{a}"]`, not tick-adjusted). -/
def portfolio_value (qty : String → ℚ) (cash : ℚ) (prices : String → ℚ) : ℚ :=
  cash + (TICKERS.map (fun t => qty (assetOf t) * prices t)).sum

/-- The tick-adjusted variant of the portfolio value, following the
spec's words (§4.3 step 3: the tick-adjusted price "must be applied
consistently to every price used in value/quantity math"); to be
compared with `portfolio_value`, which the source computes from raw
prices. -/
def portfolio_value_tick (qty : String → ℚ) (cash : ℚ) (prices : String → ℚ) : ℚ :=
  cash + (TICKERS.map (fun t => qty (assetOf t) * get_tick_price (prices t))).sum

/-- `diff_krw = target_val - prev_val` of the planning loop: target
value at the cycle's portfolio value and weight, minus holdings valued
at the tick-adjusted price. -/
def diffKRW (qty : String → ℚ) (pv : ℚ) (prices weights : String → ℚ) (t : String) : ℚ :=
  pv * weights t - qty (assetOf t) * get_tick_price (prices t)

/-- `qty = diff_krw / price` of the planning loop: raw (unquantized)
order quantity. -/
def rawQty (diff price : ℚ) : ℚ := diff / price

/-- The fee-grossed raw quantity following the spec's words (§4.3 step
4: `grossKRW = deltaKRW / (1 - feeRate)`, `rawQuantity = grossKRW /
tickAdjustedPrice`); to be compared with `rawQty`, which the source
computes without the `(1 - feeRate)` division. -/
def rawQtySpec (diff price : ℚ) : ℚ := (diff / (1 - FEE_RATE)) / price

/-- Lot-size quantization of the planning loop:
`qty = math.floor(abs(qty)/unit)*unit * (1 if qty>0 else -1)` when a
(Python-truthy, i.e. nonzero) unit is configured, identity otherwise. -/
def quantizeQty (unit : Option ℚ) (q : ℚ) : ℚ :=
  match unit with
  | some u => if u ≠ 0 then ⌊|q| / u⌋ * u * (if 0 < q then 1 else -1) else q
  | none => q

/-- One iteration of the planning loop of `rebalance`: `none` when the
asset is skipped by the minimum-order filter, otherwise the `actions`
entry. -/
def planTicker (qty : String → ℚ) (pv : ℚ) (prices weights : String → ℚ) (t : String) :
    Option Action :=
  if |diffKRW qty pv prices weights t| < MIN_ORDER then none
  else
    some
      { ticker := t
        asset := assetOf t
        diff_qty :=
          quantizeQty (ORDER_UNITS (assetOf t))
            (rawQty (diffKRW qty pv prices weights t) (get_tick_price (prices t)))
        diff_krw := diffKRW qty pv prices weights t }

/-- The `actions` list of `rebalance`. -/
def computeActions (qty : String → ℚ) (pv : ℚ) (prices weights : String → ℚ) : List Action :=
  TICKERS.filterMap (planTicker qty pv prices weights)

/-- The "Skip" console lines of the planning loop, one per ticker below
the minimum-order threshold, in basket order. -/
def skipEvents (qty : String → ℚ) (pv : ℚ) (prices weights : String → ℚ) : List Ev :=
  TICKERS.filterMap
    (fun t =>
      if |diffKRW qty pv prices weights t| < MIN_ORDER then some (Ev.skipPrint t) else none)

/-- The sell-submission loop: every action with negative quantity is
submitted with volume `abs(diff_qty)`. -/
def sellSubmitEvents (acts : List Action) : List Ev :=
  (acts.filter (fun a => a.diff_qty < 0)).map (fun a => Ev.submitSell a.ticker |a.diff_qty|)

/-- `sell_ids` of `rebalance`: the order handles (modelled by their
tickers) of the sell submissions whose response carried a `uuid`, in
submission order. -/
def sellIds (fills : String → Fill) (acts : List Action) : List String :=
  (acts.filter (fun a => a.diff_qty < 0)).filterMap
    (fun a => if (fills a.ticker).ok then some a.ticker else none)

/-- Fold state shared by the sell-reconciliation and buy loops of
`rebalance`. -/
structure LoopSt where
  qtys : String → ℚ
  cash : ℚ
  recs : List LedgerRec
  tr : List Ev

/-- One iteration of the sell-record loop of `rebalance`: read the
terminal status of the order (`market`, `executed_volume`, `paid_fee`,
`price`), decrement the holding, credit the cash net of the fee, and
append the ledger record. -/
def reconcileSellStep (fills : String → Fill) (pv : ℚ) (st : LoopSt) (oid : String) : LoopSt :=
  let f := fills oid
  let asset := assetOf oid
  let cash := st.cash + f.executed * f.price - f.fee
  { qtys := upd st.qtys asset (st.qtys asset - f.executed)
    cash := cash
    recs := st.recs ++
      [{ ticker := oid, action := "SELL", price := f.price, qty := f.executed, fee := f.fee,
         cash_after := cash, pv := pv }]
    tr := st.tr ++ [Ev.reconcileSell oid] }

/-- One iteration of the buy loop of `rebalance`: recompute the budget
cap from the current cash, clamp, skip non-positive quantities, submit
the market buy by KRW notional `str(int(spend))`, and — when the
submission returned a handle — poll to the terminal state and reconcile
from the executed fill before the next action.  The source indexes
`ORDER_UNITS[asset]` directly and would raise `KeyError` for an asset
without a configured unit; that branch is unreachable for the configured
basket and is modelled as a skip. -/
def buyStep (prices : String → ℚ) (fills : String → Fill) (pv : ℚ) (st : LoopSt)
    (act : Action) : LoopSt :=
  if 0 < act.diff_qty then
    match ORDER_UNITS act.asset with
    | none => st
    | some u =>
      let tp := get_tick_price (prices act.ticker)
      let max_qty := ⌊st.cash / (1 + FEE_RATE) / tp / u⌋ * u
      let qty := if max_qty < act.diff_qty then max_qty else act.diff_qty
      if qty ≤ 0 then st
      else
        let f := fills act.ticker
        if f.ok then
          let cash := st.cash - (f.executed * f.price + f.fee)
          { qtys := upd st.qtys act.asset (st.qtys act.asset + f.executed)
            cash := cash
            recs := st.recs ++
              [{ ticker := act.ticker, action := "BUY", price := f.price, qty := f.executed,
                 fee := f.fee, cash_after := cash, pv := pv }]
            tr := st.tr ++
              [Ev.submitBuy act.ticker qty (pyInt (qty * tp)) st.cash,
               Ev.pollBuy act.ticker, Ev.reconcileBuy act.ticker] }
        else
          { st with
            tr := st.tr ++ [Ev.submitBuy act.ticker qty (pyInt (qty * tp)) st.cash] }
  else st

/-- One full `rebalance` cycle: build the quantities dict and cash from
the loaded state, value the portfolio at raw prices, plan actions with
the minimum-order filter and quantization, submit all sells, wait for
each to reach its terminal state, reconcile the sell fills, then run the
serialized buy loop.  The cycle appends the CSV records and never calls
`save_state`. -/
def rebalance (i : RebInput) : RebResult :=
  let qty0 := quantities0 i.state
  let cash0 := i.state "KRW"
  let pv := portfolio_value qty0 cash0 i.prices
  let acts := computeActions qty0 pv i.prices i.weights
  let ids := sellIds i.fills acts
  let tr0 := skipEvents qty0 pv i.prices i.weights ++ sellSubmitEvents acts ++
    ids.map Ev.pollSell
  let afterSell := ids.foldl (reconcileSellStep i.fills pv)
    { qtys := qty0, cash := cash0, recs := [], tr := tr0 }
  let final := acts.foldl (buyStep i.prices i.fills pv) afterSell
  { qtys := final.qtys, cash := final.cash, records := final.recs, trace := final.tr }

/-- One account entry of the `/v1/accounts` response consumed by
`load_state`. -/
structure Account where
  currency : String
  balance : ℚ
deriving DecidableEq

/-- The external world of the state-store collaborators: the persisted
state file written by `save_state`, and the exchange's account balances
read by `load_state`. -/
structure ExtWorld where
  stateFile : Option (List (String × ℚ))
  accounts : List Account
deriving DecidableEq

/-- `save_state` of the source: write the given state document to the
state file. -/
def save_state (w : ExtWorld) (state : List (String × ℚ)) : ExtWorld :=
  { w with stateFile := some state }

/-- `load_state` of the source: build the balances dict from the
exchange's `/v1/accounts` response — cash under `"KRW"`, every other
currency under `"KRW-{currency}"`, absent keys defaulting to `0`
(`defaultdict(float)`).  The state file is not read. -/
def load_state (w : ExtWorld) : String → ℚ :=
  w.accounts.foldl
    (fun bal acc =>
      if acc.currency = "KRW" then upd bal "KRW" acc.balance
      else upd bal ("KRW-" ++ acc.currency) acc.balance)
    (fun _ => 0)


/-- A 21-close price history whose 20 percentage changes are
`[1/2, -1/2, 3/10, -3/10, 1/5, -1/5]` followed by fourteen zeros: their
sample variance is exactly `1/25`, so the trailing volatility is the
rational `1/5`. -/
def closesW : List ℚ :=
  [1, 3/2, 3/4, 39/40, 273/400, 819/1000, 819/1250] ++ List.replicate 14 (819/1250)


/-- Tickers of the sell orders reconciled in a trace, in order. -/
def sellRecTickers (l : List Ev) : List String :=
  l.filterMap (fun e => match e with | Ev.reconcileSell t => some t | _ => none)

/-- Tickers of the buy orders reconciled in a trace, in order. -/
def buyRecTickers (l : List Ev) : List String :=
  l.filterMap (fun e => match e with | Ev.reconcileBuy t => some t | _ => none)


/-- Payload property of a buy-submission event: the submitted quantity
is positive, no larger than the intended quantity, clamped to the
budget cap recomputed from the cash at submission time with the asset's
configured lot increment, the submitted notional is `int(qty * tick
price)`, and the fee-grossed notional does not exceed the cash at
submission time. -/
def SubmitBuyOk (prices : String → ℚ) (acts : List Action) (e : Ev) : Prop :=
  ∀ t qty n c, e = Ev.submitBuy t qty n c →
    ∃ act ∈ acts, act.ticker = t ∧
      ∃ u, ORDER_UNITS act.asset = some u ∧ 0 < qty ∧ qty ≤ act.diff_qty ∧
        qty ≤ ⌊c / (1 + FEE_RATE) / get_tick_price (prices t) / u⌋ * u ∧
        n = pyInt (qty * get_tick_price (prices t)) ∧
        (0 ≤ get_tick_price (prices t) → qty * get_tick_price (prices t) * (1 + FEE_RATE) ≤ c)


/-- The portfolio value computed at the top of a `rebalance` cycle. -/
def rebPV (i : RebInput) : ℚ :=
  portfolio_value (quantities0 i.state) (i.state "KRW") i.prices

/-- The `actions` list computed by a `rebalance` cycle. -/
def rebActs (i : RebInput) : List Action :=
  computeActions (quantities0 i.state) (rebPV i) i.prices i.weights

/-- The `sell_ids` list of a `rebalance` cycle. -/
def rebIds (i : RebInput) : List String := sellIds i.fills (rebActs i)

/-- The trace prefix of a `rebalance` cycle: skip lines, sell
submissions, sell polls. -/
def rebTr0 (i : RebInput) : List Ev :=
  skipEvents (quantities0 i.state) (rebPV i) i.prices i.weights ++
    sellSubmitEvents (rebActs i) ++ (rebIds i).map Ev.pollSell

/-- The loop state at the start of the sell-reconciliation loop. -/
def rebSt0 (i : RebInput) : LoopSt :=
  { qtys := quantities0 i.state, cash := i.state "KRW", recs := [], tr := rebTr0 i }

/-- The loop state after the sell-reconciliation loop, before the buy
loop. -/
def rebAfterSell (i : RebInput) : LoopSt :=
  (rebIds i).foldl (reconcileSellStep i.fills (rebPV i)) (rebSt0 i)


/-- Input exercising the buy budget cap: one million KRW cash, full
weight on BTC, so the intended quantity 10000 exceeds the affordable
quantity and is clamped. -/
def inC1 : RebInput :=
  { state := fun k => if k = "KRW" then 1000000 else 0
    prices := fun t => if t = "KRW-BTC" then 100 else 1
    weights := fun t => if t = "KRW-BTC" then 1 else 0
    fills := fun _ => { ok := true, executed := 0, fee := 0, price := 0 } }

/-- Input with a single BTC buy of net delta 10000 KRW at tick price
100. -/
def inC3 : RebInput :=
  { state := fun k => if k = "KRW" then 10000 else 0
    prices := fun t => if t = "KRW-BTC" then 100 else 1
    weights := fun t => if t = "KRW-BTC" then 1 else 0
    fills := fun _ => { ok := true, executed := 0, fee := 0, price := 0 } }

/-- Trivial input: no cash, no holdings, every delta zero. -/
def inC6 : RebInput :=
  { state := fun _ => 0
    prices := fun _ => 0
    weights := fun _ => 0
    fills := fun _ => { ok := true, executed := 0, fee := 0, price := 0 } }

/-- Input where the XRP delta is exactly 3000 KRW (below the minimum
order value 5000) while BTC gets a real buy that is filled. -/
def inC7 : RebInput :=
  { state := fun k => if k = "KRW" then 100000 else 0
    prices := fun _ => 100
    weights := fun t => if t = "KRW-BTC" then 1 / 2
      else if t = "KRW-XRP" then 3 / 100 else 0
    fills := fun _ => { ok := true, executed := 1, fee := 2, price := 3 } }

/-- Input holding one BTC at the raw price 150.05, whose tick-adjusted
price is 150. -/
def inC9 : RebInput :=
  { state := fun k => if k = "KRW-BTC" then 1 else 0
    prices := fun _ => 3001 / 20
    weights := fun _ => 0
    fills := fun _ => { ok := true, executed := 0, fee := 0, price := 0 } }

lemma tickFloor_le (p tick : ℚ) (ht : 0 < tick) : tickFloor p tick ≤ p := by
  calc (⌊p / tick⌋ : ℚ) * tick ≤ (p / tick) * tick :=
        mul_le_mul_of_nonneg_right (Int.floor_le _) ht.le
    _ = p := div_mul_cancel₀ p ht.ne'

lemma tickFloor_nonneg (p tick : ℚ) (hp : 0 ≤ p) (ht : 0 < tick) : 0 ≤ tickFloor p tick := by
  have h : (0 : ℤ) ≤ ⌊p / tick⌋ := Int.floor_nonneg.2 (div_nonneg hp ht.le)
  have h2 : (0 : ℚ) ≤ (⌊p / tick⌋ : ℚ) := by exact_mod_cast h
  exact mul_nonneg h2 ht.le

lemma tickFloor_ge (p T tick : ℚ) (m : ℤ) (hT : (m : ℚ) * tick = T) (ht : 0 < tick)
    (hp : T ≤ p) : T ≤ tickFloor p tick := by
  have hm : (m : ℚ) ≤ p / tick := by
    rw [le_div_iff₀ ht]
    exact hT.le.trans hp
  have h2 : m ≤ ⌊p / tick⌋ := Int.le_floor.2 hm
  calc T = (m : ℚ) * tick := hT.symm
    _ ≤ (⌊p / tick⌋ : ℚ) * tick := by
        exact mul_le_mul_of_nonneg_right (by exact_mod_cast h2) ht.le
    _ = tickFloor p tick := rfl

lemma tickFloor_self (k : ℤ) (tick : ℚ) (ht : tick ≠ 0) :
    tickFloor ((k : ℚ) * tick) tick = (k : ℚ) * tick := by
  unfold tickFloor
  rw [mul_div_cancel_right₀ _ ht, Int.floor_intCast]

lemma bandTick_pos_gtp_eq (p : ℚ) :
    0 < bandTick p ∧ get_tick_price p = tickFloor p (bandTick p) := by
  rcases le_or_lt (2000000 : ℚ) p with h1 | h1
  · rw [bandTick, if_pos h1, get_tick_price, if_pos h1]
    exact ⟨by norm_num, rfl⟩
  ·
    rcases le_or_lt (1000000 : ℚ) p with h2 | h2
    · rw [bandTick, if_neg (not_le.2 h1), if_pos h2, get_tick_price, if_neg (not_le.2 h1), if_pos h2]
      exact ⟨by norm_num, rfl⟩
    ·
      rcases le_or_lt (500000 : ℚ) p with h3 | h3
      · rw [bandTick, if_neg (not_le.2 h1), if_neg (not_le.2 h2), if_pos h3, get_tick_price, if_neg (not_le.2 h1), if_neg (not_le.2 h2), if_pos h3]
        exact ⟨by norm_num, rfl⟩
      ·
        rcases le_or_lt (100000 : ℚ) p with h4 | h4
        · rw [bandTick, if_neg (not_le.2 h1), if_neg (not_le.2 h2), if_neg (not_le.2 h3), if_pos h4, get_tick_price, if_neg (not_le.2 h1), if_neg (not_le.2 h2), if_neg (not_le.2 h3), if_pos h4]
          exact ⟨by norm_num, rfl⟩
        ·
          rcases le_or_lt (10000 : ℚ) p with h5 | h5
          · rw [bandTick, if_neg (not_le.2 h1), if_neg (not_le.2 h2), if_neg (not_le.2 h3), if_neg (not_le.2 h4), if_pos h5, get_tick_price, if_neg (not_le.2 h1), if_neg (not_le.2 h2), if_neg (not_le.2 h3), if_neg (not_le.2 h4), if_pos h5]
            exact ⟨by norm_num, rfl⟩
          ·
            rcases le_or_lt (1000 : ℚ) p with h6 | h6
            · rw [bandTick, if_neg (not_le.2 h1), if_neg (not_le.2 h2), if_neg (not_le.2 h3), if_neg (not_le.2 h4), if_neg (not_le.2 h5), if_pos h6, get_tick_price, if_neg (not_le.2 h1), if_neg (not_le.2 h2), if_neg (not_le.2 h3), if_neg (not_le.2 h4), if_neg (not_le.2 h5), if_pos h6]
              exact ⟨by norm_num, rfl⟩
            ·
              rcases le_or_lt (100 : ℚ) p with h7 | h7
              · rw [bandTick, if_neg (not_le.2 h1), if_neg (not_le.2 h2), if_neg (not_le.2 h3), if_neg (not_le.2 h4), if_neg (not_le.2 h5), if_neg (not_le.2 h6), if_pos h7, get_tick_price, if_neg (not_le.2 h1), if_neg (not_le.2 h2), if_neg (not_le.2 h3), if_neg (not_le.2 h4), if_neg (not_le.2 h5), if_neg (not_le.2 h6), if_pos h7]
                exact ⟨by norm_num, rfl⟩
              ·
                rcases le_or_lt (10 : ℚ) p with h8 | h8
                · rw [bandTick, if_neg (not_le.2 h1), if_neg (not_le.2 h2), if_neg (not_le.2 h3), if_neg (not_le.2 h4), if_neg (not_le.2 h5), if_neg (not_le.2 h6), if_neg (not_le.2 h7), if_pos h8, get_tick_price, if_neg (not_le.2 h1), if_neg (not_le.2 h2), if_neg (not_le.2 h3), if_neg (not_le.2 h4), if_neg (not_le.2 h5), if_neg (not_le.2 h6), if_neg (not_le.2 h7), if_pos h8]
                  exact ⟨by norm_num, rfl⟩
                ·
                  rcases le_or_lt (1 : ℚ) p with h9 | h9
                  · rw [bandTick, if_neg (not_le.2 h1), if_neg (not_le.2 h2), if_neg (not_le.2 h3), if_neg (not_le.2 h4), if_neg (not_le.2 h5), if_neg (not_le.2 h6), if_neg (not_le.2 h7), if_neg (not_le.2 h8), if_pos h9, get_tick_price, if_neg (not_le.2 h1), if_neg (not_le.2 h2), if_neg (not_le.2 h3), if_neg (not_le.2 h4), if_neg (not_le.2 h5), if_neg (not_le.2 h6), if_neg (not_le.2 h7), if_neg (not_le.2 h8), if_pos h9]
                    exact ⟨by norm_num, rfl⟩
                  ·
                    rcases le_or_lt (1 / 10 : ℚ) p with h10 | h10
                    · rw [bandTick, if_neg (not_le.2 h1), if_neg (not_le.2 h2), if_neg (not_le.2 h3), if_neg (not_le.2 h4), if_neg (not_le.2 h5), if_neg (not_le.2 h6), if_neg (not_le.2 h7), if_neg (not_le.2 h8), if_neg (not_le.2 h9), if_pos h10, get_tick_price, if_neg (not_le.2 h1), if_neg (not_le.2 h2), if_neg (not_le.2 h3), if_neg (not_le.2 h4), if_neg (not_le.2 h5), if_neg (not_le.2 h6), if_neg (not_le.2 h7), if_neg (not_le.2 h8), if_neg (not_le.2 h9), if_pos h10]
                      exact ⟨by norm_num, rfl⟩
                    ·
                      rcases le_or_lt (1 / 100 : ℚ) p with h11 | h11
                      · rw [bandTick, if_neg (not_le.2 h1), if_neg (not_le.2 h2), if_neg (not_le.2 h3), if_neg (not_le.2 h4), if_neg (not_le.2 h5), if_neg (not_le.2 h6), if_neg (not_le.2 h7), if_neg (not_le.2 h8), if_neg (not_le.2 h9), if_neg (not_le.2 h10), if_pos h11, get_tick_price, if_neg (not_le.2 h1), if_neg (not_le.2 h2), if_neg (not_le.2 h3), if_neg (not_le.2 h4), if_neg (not_le.2 h5), if_neg (not_le.2 h6), if_neg (not_le.2 h7), if_neg (not_le.2 h8), if_neg (not_le.2 h9), if_neg (not_le.2 h10), if_pos h11]
                        exact ⟨by norm_num, rfl⟩
                      ·
                        rcases le_or_lt (1 / 1000 : ℚ) p with h12 | h12
                        · rw [bandTick, if_neg (not_le.2 h1), if_neg (not_le.2 h2), if_neg (not_le.2 h3), if_neg (not_le.2 h4), if_neg (not_le.2 h5), if_neg (not_le.2 h6), if_neg (not_le.2 h7), if_neg (not_le.2 h8), if_neg (not_le.2 h9), if_neg (not_le.2 h10), if_neg (not_le.2 h11), if_pos h12, get_tick_price, if_neg (not_le.2 h1), if_neg (not_le.2 h2), if_neg (not_le.2 h3), if_neg (not_le.2 h4), if_neg (not_le.2 h5), if_neg (not_le.2 h6), if_neg (not_le.2 h7), if_neg (not_le.2 h8), if_neg (not_le.2 h9), if_neg (not_le.2 h10), if_neg (not_le.2 h11), if_pos h12]
                          exact ⟨by norm_num, rfl⟩
                        ·
                          rcases le_or_lt (1 / 10000 : ℚ) p with h13 | h13
                          · rw [bandTick, if_neg (not_le.2 h1), if_neg (not_le.2 h2), if_neg (not_le.2 h3), if_neg (not_le.2 h4), if_neg (not_le.2 h5), if_neg (not_le.2 h6), if_neg (not_le.2 h7), if_neg (not_le.2 h8), if_neg (not_le.2 h9), if_neg (not_le.2 h10), if_neg (not_le.2 h11), if_neg (not_le.2 h12), if_pos h13, get_tick_price, if_neg (not_le.2 h1), if_neg (not_le.2 h2), if_neg (not_le.2 h3), if_neg (not_le.2 h4), if_neg (not_le.2 h5), if_neg (not_le.2 h6), if_neg (not_le.2 h7), if_neg (not_le.2 h8), if_neg (not_le.2 h9), if_neg (not_le.2 h10), if_neg (not_le.2 h11), if_neg (not_le.2 h12), if_pos h13]
                            exact ⟨by norm_num, rfl⟩
                          · rw [bandTick, if_neg (not_le.2 h1), if_neg (not_le.2 h2), if_neg (not_le.2 h3), if_neg (not_le.2 h4), if_neg (not_le.2 h5), if_neg (not_le.2 h6), if_neg (not_le.2 h7), if_neg (not_le.2 h8), if_neg (not_le.2 h9), if_neg (not_le.2 h10), if_neg (not_le.2 h11), if_neg (not_le.2 h12), if_neg (not_le.2 h13)]
                            rw [get_tick_price, if_neg (not_le.2 h1), if_neg (not_le.2 h2), if_neg (not_le.2 h3), if_neg (not_le.2 h4), if_neg (not_le.2 h5), if_neg (not_le.2 h6), if_neg (not_le.2 h7), if_neg (not_le.2 h8), if_neg (not_le.2 h9), if_neg (not_le.2 h10), if_neg (not_le.2 h11), if_neg (not_le.2 h12), if_neg (not_le.2 h13)]
                            exact ⟨by norm_num, rfl⟩

lemma bandTick_gtp (p : ℚ) :
    bandTick (get_tick_price p) = bandTick p := by
  rcases le_or_lt (2000000 : ℚ) p with h1 | h1
  · rw [get_tick_price, if_pos h1]
    have hle := tickFloor_le p (1000) (by norm_num)
    have hge := tickFloor_ge p (2000000) (1000) 2000 (by norm_num) (by norm_num) h1
    rw [bandTick, if_pos hge]
    rw [bandTick, if_pos h1]
  ·
    rcases le_or_lt (1000000 : ℚ) p with h2 | h2
    · rw [get_tick_price, if_neg (not_le.2 h1), if_pos h2]
      have hle := tickFloor_le p (500) (by norm_num)
      have hge := tickFloor_ge p (1000000) (500) 2000 (by norm_num) (by norm_num) h2
      rw [bandTick, if_neg (not_le.2 (lt_of_le_of_lt hle h1)), if_pos hge]
      rw [bandTick, if_neg (not_le.2 h1), if_pos h2]
    ·
      rcases le_or_lt (500000 : ℚ) p with h3 | h3
      · rw [get_tick_price, if_neg (not_le.2 h1), if_neg (not_le.2 h2), if_pos h3]
        have hle := tickFloor_le p (100) (by norm_num)
        have hge := tickFloor_ge p (500000) (100) 5000 (by norm_num) (by norm_num) h3
        rw [bandTick, if_neg (not_le.2 (lt_of_le_of_lt hle h1)), if_neg (not_le.2 (lt_of_le_of_lt hle h2)), if_pos hge]
        rw [bandTick, if_neg (not_le.2 h1), if_neg (not_le.2 h2), if_pos h3]
      ·
        rcases le_or_lt (100000 : ℚ) p with h4 | h4
        · rw [get_tick_price, if_neg (not_le.2 h1), if_neg (not_le.2 h2), if_neg (not_le.2 h3), if_pos h4]
          have hle := tickFloor_le p (50) (by norm_num)
          have hge := tickFloor_ge p (100000) (50) 2000 (by norm_num) (by norm_num) h4
          rw [bandTick, if_neg (not_le.2 (lt_of_le_of_lt hle h1)), if_neg (not_le.2 (lt_of_le_of_lt hle h2)), if_neg (not_le.2 (lt_of_le_of_lt hle h3)), if_pos hge]
          rw [bandTick, if_neg (not_le.2 h1), if_neg (not_le.2 h2), if_neg (not_le.2 h3), if_pos h4]
        ·
          rcases le_or_lt (10000 : ℚ) p with h5 | h5
          · rw [get_tick_price, if_neg (not_le.2 h1), if_neg (not_le.2 h2), if_neg (not_le.2 h3), if_neg (not_le.2 h4), if_pos h5]
            have hle := tickFloor_le p (10) (by norm_num)
            have hge := tickFloor_ge p (10000) (10) 1000 (by norm_num) (by norm_num) h5
            rw [bandTick, if_neg (not_le.2 (lt_of_le_of_lt hle h1)), if_neg (not_le.2 (lt_of_le_of_lt hle h2)), if_neg (not_le.2 (lt_of_le_of_lt hle h3)), if_neg (not_le.2 (lt_of_le_of_lt hle h4)), if_pos hge]
            rw [bandTick, if_neg (not_le.2 h1), if_neg (not_le.2 h2), if_neg (not_le.2 h3), if_neg (not_le.2 h4), if_pos h5]
          ·
            rcases le_or_lt (1000 : ℚ) p with h6 | h6
            · rw [get_tick_price, if_neg (not_le.2 h1), if_neg (not_le.2 h2), if_neg (not_le.2 h3), if_neg (not_le.2 h4), if_neg (not_le.2 h5), if_pos h6]
              have hle := tickFloor_le p (1) (by norm_num)
              have hge := tickFloor_ge p (1000) (1) 1000 (by norm_num) (by norm_num) h6
              rw [bandTick, if_neg (not_le.2 (lt_of_le_of_lt hle h1)), if_neg (not_le.2 (lt_of_le_of_lt hle h2)), if_neg (not_le.2 (lt_of_le_of_lt hle h3)), if_neg (not_le.2 (lt_of_le_of_lt hle h4)), if_neg (not_le.2 (lt_of_le_of_lt hle h5)), if_pos hge]
              rw [bandTick, if_neg (not_le.2 h1), if_neg (not_le.2 h2), if_neg (not_le.2 h3), if_neg (not_le.2 h4), if_neg (not_le.2 h5), if_pos h6]
            ·
              rcases le_or_lt (100 : ℚ) p with h7 | h7
              · rw [get_tick_price, if_neg (not_le.2 h1), if_neg (not_le.2 h2), if_neg (not_le.2 h3), if_neg (not_le.2 h4), if_neg (not_le.2 h5), if_neg (not_le.2 h6), if_pos h7]
                have hle := tickFloor_le p (1 / 10) (by norm_num)
                have hge := tickFloor_ge p (100) (1 / 10) 1000 (by norm_num) (by norm_num) h7
                rw [bandTick, if_neg (not_le.2 (lt_of_le_of_lt hle h1)), if_neg (not_le.2 (lt_of_le_of_lt hle h2)), if_neg (not_le.2 (lt_of_le_of_lt hle h3)), if_neg (not_le.2 (lt_of_le_of_lt hle h4)), if_neg (not_le.2 (lt_of_le_of_lt hle h5)), if_neg (not_le.2 (lt_of_le_of_lt hle h6)), if_pos hge]
                rw [bandTick, if_neg (not_le.2 h1), if_neg (not_le.2 h2), if_neg (not_le.2 h3), if_neg (not_le.2 h4), if_neg (not_le.2 h5), if_neg (not_le.2 h6), if_pos h7]
              ·
                rcases le_or_lt (10 : ℚ) p with h8 | h8
                · rw [get_tick_price, if_neg (not_le.2 h1), if_neg (not_le.2 h2), if_neg (not_le.2 h3), if_neg (not_le.2 h4), if_neg (not_le.2 h5), if_neg (not_le.2 h6), if_neg (not_le.2 h7), if_pos h8]
                  have hle := tickFloor_le p (1 / 100) (by norm_num)
                  have hge := tickFloor_ge p (10) (1 / 100) 1000 (by norm_num) (by norm_num) h8
                  rw [bandTick, if_neg (not_le.2 (lt_of_le_of_lt hle h1)), if_neg (not_le.2 (lt_of_le_of_lt hle h2)), if_neg (not_le.2 (lt_of_le_of_lt hle h3)), if_neg (not_le.2 (lt_of_le_of_lt hle h4)), if_neg (not_le.2 (lt_of_le_of_lt hle h5)), if_neg (not_le.2 (lt_of_le_of_lt hle h6)), if_neg (not_le.2 (lt_of_le_of_lt hle h7)), if_pos hge]
                  rw [bandTick, if_neg (not_le.2 h1), if_neg (not_le.2 h2), if_neg (not_le.2 h3), if_neg (not_le.2 h4), if_neg (not_le.2 h5), if_neg (not_le.2 h6), if_neg (not_le.2 h7), if_pos h8]
                ·
                  rcases le_or_lt (1 : ℚ) p with h9 | h9
                  · rw [get_tick_price, if_neg (not_le.2 h1), if_neg (not_le.2 h2), if_neg (not_le.2 h3), if_neg (not_le.2 h4), if_neg (not_le.2 h5), if_neg (not_le.2 h6), if_neg (not_le.2 h7), if_neg (not_le.2 h8), if_pos h9]
                    have hle := tickFloor_le p (1 / 1000) (by norm_num)
                    have hge := tickFloor_ge p (1) (1 / 1000) 1000 (by norm_num) (by norm_num) h9
                    rw [bandTick, if_neg (not_le.2 (lt_of_le_of_lt hle h1)), if_neg (not_le.2 (lt_of_le_of_lt hle h2)), if_neg (not_le.2 (lt_of_le_of_lt hle h3)), if_neg (not_le.2 (lt_of_le_of_lt hle h4)), if_neg (not_le.2 (lt_of_le_of_lt hle h5)), if_neg (not_le.2 (lt_of_le_of_lt hle h6)), if_neg (not_le.2 (lt_of_le_of_lt hle h7)), if_neg (not_le.2 (lt_of_le_of_lt hle h8)), if_pos hge]
                    rw [bandTick, if_neg (not_le.2 h1), if_neg (not_le.2 h2), if_neg (not_le.2 h3), if_neg (not_le.2 h4), if_neg (not_le.2 h5), if_neg (not_le.2 h6), if_neg (not_le.2 h7), if_neg (not_le.2 h8), if_pos h9]
                  ·
                    rcases le_or_lt (1 / 10 : ℚ) p with h10 | h10
                    · rw [get_tick_price, if_neg (not_le.2 h1), if_neg (not_le.2 h2), if_neg (not_le.2 h3), if_neg (not_le.2 h4), if_neg (not_le.2 h5), if_neg (not_le.2 h6), if_neg (not_le.2 h7), if_neg (not_le.2 h8), if_neg (not_le.2 h9), if_pos h10]
                      have hle := tickFloor_le p (1 / 10000) (by norm_num)
                      have hge := tickFloor_ge p (1 / 10) (1 / 10000) 1000 (by norm_num) (by norm_num) h10
                      rw [bandTick, if_neg (not_le.2 (lt_of_le_of_lt hle h1)), if_neg (not_le.2 (lt_of_le_of_lt hle h2)), if_neg (not_le.2 (lt_of_le_of_lt hle h3)), if_neg (not_le.2 (lt_of_le_of_lt hle h4)), if_neg (not_le.2 (lt_of_le_of_lt hle h5)), if_neg (not_le.2 (lt_of_le_of_lt hle h6)), if_neg (not_le.2 (lt_of_le_of_lt hle h7)), if_neg (not_le.2 (lt_of_le_of_lt hle h8)), if_neg (not_le.2 (lt_of_le_of_lt hle h9)), if_pos hge]
                      rw [bandTick, if_neg (not_le.2 h1), if_neg (not_le.2 h2), if_neg (not_le.2 h3), if_neg (not_le.2 h4), if_neg (not_le.2 h5), if_neg (not_le.2 h6), if_neg (not_le.2 h7), if_neg (not_le.2 h8), if_neg (not_le.2 h9), if_pos h10]
                    ·
                      rcases le_or_lt (1 / 100 : ℚ) p with h11 | h11
                      · rw [get_tick_price, if_neg (not_le.2 h1), if_neg (not_le.2 h2), if_neg (not_le.2 h3), if_neg (not_le.2 h4), if_neg (not_le.2 h5), if_neg (not_le.2 h6), if_neg (not_le.2 h7), if_neg (not_le.2 h8), if_neg (not_le.2 h9), if_neg (not_le.2 h10), if_pos h11]
                        have hle := tickFloor_le p (1 / 100000) (by norm_num)
                        have hge := tickFloor_ge p (1 / 100) (1 / 100000) 1000 (by norm_num) (by norm_num) h11
                        rw [bandTick, if_neg (not_le.2 (lt_of_le_of_lt hle h1)), if_neg (not_le.2 (lt_of_le_of_lt hle h2)), if_neg (not_le.2 (lt_of_le_of_lt hle h3)), if_neg (not_le.2 (lt_of_le_of_lt hle h4)), if_neg (not_le.2 (lt_of_le_of_lt hle h5)), if_neg (not_le.2 (lt_of_le_of_lt hle h6)), if_neg (not_le.2 (lt_of_le_of_lt hle h7)), if_neg (not_le.2 (lt_of_le_of_lt hle h8)), if_neg (not_le.2 (lt_of_le_of_lt hle h9)), if_neg (not_le.2 (lt_of_le_of_lt hle h10)), if_pos hge]
                        rw [bandTick, if_neg (not_le.2 h1), if_neg (not_le.2 h2), if_neg (not_le.2 h3), if_neg (not_le.2 h4), if_neg (not_le.2 h5), if_neg (not_le.2 h6), if_neg (not_le.2 h7), if_neg (not_le.2 h8), if_neg (not_le.2 h9), if_neg (not_le.2 h10), if_pos h11]
                      ·
                        rcases le_or_lt (1 / 1000 : ℚ) p with h12 | h12
                        · rw [get_tick_price, if_neg (not_le.2 h1), if_neg (not_le.2 h2), if_neg (not_le.2 h3), if_neg (not_le.2 h4), if_neg (not_le.2 h5), if_neg (not_le.2 h6), if_neg (not_le.2 h7), if_neg (not_le.2 h8), if_neg (not_le.2 h9), if_neg (not_le.2 h10), if_neg (not_le.2 h11), if_pos h12]
                          have hle := tickFloor_le p (1 / 1000000) (by norm_num)
                          have hge := tickFloor_ge p (1 / 1000) (1 / 1000000) 1000 (by norm_num) (by norm_num) h12
                          rw [bandTick, if_neg (not_le.2 (lt_of_le_of_lt hle h1)), if_neg (not_le.2 (lt_of_le_of_lt hle h2)), if_neg (not_le.2 (lt_of_le_of_lt hle h3)), if_neg (not_le.2 (lt_of_le_of_lt hle h4)), if_neg (not_le.2 (lt_of_le_of_lt hle h5)), if_neg (not_le.2 (lt_of_le_of_lt hle h6)), if_neg (not_le.2 (lt_of_le_of_lt hle h7)), if_neg (not_le.2 (lt_of_le_of_lt hle h8)), if_neg (not_le.2 (lt_of_le_of_lt hle h9)), if_neg (not_le.2 (lt_of_le_of_lt hle h10)), if_neg (not_le.2 (lt_of_le_of_lt hle h11)), if_pos hge]
                          rw [bandTick, if_neg (not_le.2 h1), if_neg (not_le.2 h2), if_neg (not_le.2 h3), if_neg (not_le.2 h4), if_neg (not_le.2 h5), if_neg (not_le.2 h6), if_neg (not_le.2 h7), if_neg (not_le.2 h8), if_neg (not_le.2 h9), if_neg (not_le.2 h10), if_neg (not_le.2 h11), if_pos h12]
                        ·
                          rcases le_or_lt (1 / 10000 : ℚ) p with h13 | h13
                          · rw [get_tick_price, if_neg (not_le.2 h1), if_neg (not_le.2 h2), if_neg (not_le.2 h3), if_neg (not_le.2 h4), if_neg (not_le.2 h5), if_neg (not_le.2 h6), if_neg (not_le.2 h7), if_neg (not_le.2 h8), if_neg (not_le.2 h9), if_neg (not_le.2 h10), if_neg (not_le.2 h11), if_neg (not_le.2 h12), if_pos h13]
                            have hle := tickFloor_le p (1 / 10000000) (by norm_num)
                            have hge := tickFloor_ge p (1 / 10000) (1 / 10000000) 1000 (by norm_num) (by norm_num) h13
                            rw [bandTick, if_neg (not_le.2 (lt_of_le_of_lt hle h1)), if_neg (not_le.2 (lt_of_le_of_lt hle h2)), if_neg (not_le.2 (lt_of_le_of_lt hle h3)), if_neg (not_le.2 (lt_of_le_of_lt hle h4)), if_neg (not_le.2 (lt_of_le_of_lt hle h5)), if_neg (not_le.2 (lt_of_le_of_lt hle h6)), if_neg (not_le.2 (lt_of_le_of_lt hle h7)), if_neg (not_le.2 (lt_of_le_of_lt hle h8)), if_neg (not_le.2 (lt_of_le_of_lt hle h9)), if_neg (not_le.2 (lt_of_le_of_lt hle h10)), if_neg (not_le.2 (lt_of_le_of_lt hle h11)), if_neg (not_le.2 (lt_of_le_of_lt hle h12)), if_pos hge]
                            rw [bandTick, if_neg (not_le.2 h1), if_neg (not_le.2 h2), if_neg (not_le.2 h3), if_neg (not_le.2 h4), if_neg (not_le.2 h5), if_neg (not_le.2 h6), if_neg (not_le.2 h7), if_neg (not_le.2 h8), if_neg (not_le.2 h9), if_neg (not_le.2 h10), if_neg (not_le.2 h11), if_neg (not_le.2 h12), if_pos h13]
                          · rw [get_tick_price, if_neg (not_le.2 h1), if_neg (not_le.2 h2), if_neg (not_le.2 h3), if_neg (not_le.2 h4), if_neg (not_le.2 h5), if_neg (not_le.2 h6), if_neg (not_le.2 h7), if_neg (not_le.2 h8), if_neg (not_le.2 h9), if_neg (not_le.2 h10), if_neg (not_le.2 h11), if_neg (not_le.2 h12), if_neg (not_le.2 h13)]
                            have hle := tickFloor_le p (1 / 100000000) (by norm_num)
                            rw [bandTick, if_neg (not_le.2 (lt_of_le_of_lt hle h1)), if_neg (not_le.2 (lt_of_le_of_lt hle h2)), if_neg (not_le.2 (lt_of_le_of_lt hle h3)), if_neg (not_le.2 (lt_of_le_of_lt hle h4)), if_neg (not_le.2 (lt_of_le_of_lt hle h5)), if_neg (not_le.2 (lt_of_le_of_lt hle h6)), if_neg (not_le.2 (lt_of_le_of_lt hle h7)), if_neg (not_le.2 (lt_of_le_of_lt hle h8)), if_neg (not_le.2 (lt_of_le_of_lt hle h9)), if_neg (not_le.2 (lt_of_le_of_lt hle h10)), if_neg (not_le.2 (lt_of_le_of_lt hle h11)), if_neg (not_le.2 (lt_of_le_of_lt hle h12)), if_neg (not_le.2 (lt_of_le_of_lt hle h13))]
                            rw [bandTick, if_neg (not_le.2 h1), if_neg (not_le.2 h2), if_neg (not_le.2 h3), if_neg (not_le.2 h4), if_neg (not_le.2 h5), if_neg (not_le.2 h6), if_neg (not_le.2 h7), if_neg (not_le.2 h8), if_neg (not_le.2 h9), if_neg (not_le.2 h10), if_neg (not_le.2 h11), if_neg (not_le.2 h12), if_neg (not_le.2 h13)]

/-- Claim C10: for every positive price `p`, `get_tick_price p` is at
most `p`, equals `p` floored to an integer multiple of the tick of `p`'s
price band, and is idempotent. -/
theorem C10_get_tick_price_le_band_idempotent (p : ℚ) (_hp : 0 < p) :
    get_tick_price p ≤ p ∧
    get_tick_price p = ⌊p / bandTick p⌋ * bandTick p ∧
    (∃ k : ℤ, get_tick_price p = (k : ℚ) * bandTick p) ∧
    get_tick_price (get_tick_price p) = get_tick_price p := by
  obtain ⟨hbpos, heq⟩ := bandTick_pos_gtp_eq p
  refine ⟨?_, heq, ⟨⌊p / bandTick p⌋, heq⟩, ?_⟩
  · rw [heq]
    exact tickFloor_le _ _ hbpos
  · obtain ⟨hbpos2, heq2⟩ := bandTick_pos_gtp_eq (get_tick_price p)
    rw [heq2, bandTick_gtp p, heq]
    exact tickFloor_self ⌊p / bandTick p⌋ (bandTick p) hbpos.ne'

/-- Witness for C10 at the concrete price `123456`: band `[100000,
500000)` with tick `50`, floored to `123450`. -/
theorem C10_witness :
    (0 : ℚ) < 123456 ∧
    (get_tick_price 123456 ≤ 123456 ∧
      get_tick_price 123456 = ⌊(123456 : ℚ) / bandTick 123456⌋ * bandTick 123456 ∧
      (∃ k : ℤ, get_tick_price 123456 = (k : ℚ) * bandTick 123456) ∧
      get_tick_price (get_tick_price 123456) = get_tick_price 123456) :=
  ⟨by norm_num, C10_get_tick_price_le_band_idempotent 123456 (by norm_num)⟩

/-- Claim C8: lot-size quantization with a configured (positive)
increment yields an exact integer multiple of the increment whose
absolute value is the raw absolute quantity truncated down (never
larger) and whose sign is compatible with the raw quantity; with no
configured increment the quantity passes through unchanged. -/
theorem C8_quantize_multiple_truncation_sign (u q : ℚ) (hu : 0 < u) :
    (∃ k : ℤ, quantizeQty (some u) q = (k : ℚ) * u) ∧
    |quantizeQty (some u) q| = ⌊|q| / u⌋ * u ∧
    |quantizeQty (some u) q| ≤ |q| ∧
    (0 < q → 0 ≤ quantizeQty (some u) q) ∧
    (q < 0 → quantizeQty (some u) q ≤ 0) ∧
    quantizeQty none q = q := by
  have hF0 : (0 : ℚ) ≤ ⌊|q| / u⌋ * u := tickFloor_nonneg |q| u (abs_nonneg q) hu
  have hFle : (⌊|q| / u⌋ : ℚ) * u ≤ |q| := tickFloor_le |q| u hu
  have hqq : quantizeQty (some u) q = ⌊|q| / u⌋ * u * (if 0 < q then 1 else -1) := by
    simp only [quantizeQty]
    rw [if_pos hu.ne']
  by_cases hq : 0 < q
  · rw [hqq, if_pos hq, mul_one]
    exact ⟨⟨⌊|q| / u⌋, rfl⟩, abs_of_nonneg hF0, (abs_of_nonneg hF0).le.trans hFle,
      fun _ => hF0, fun hlt => absurd hlt (not_lt.2 hq.le), rfl⟩
  · rw [hqq, if_neg hq, mul_neg_one, abs_neg]
    refine ⟨⟨-⌊|q| / u⌋, by push_cast; ring⟩, abs_of_nonneg hF0,
      (abs_of_nonneg hF0).le.trans hFle, fun h0 => absurd h0 hq,
      fun _ => neg_nonpos.2 hF0, rfl⟩

/-- Witness for C8 at increment `1/10` and raw quantity `-7/4`: the
quantized quantity is `-17/10`. -/
theorem C8_witness :
    (0 : ℚ) < 1 / 10 ∧
    ((∃ k : ℤ, quantizeQty (some (1 / 10)) (-7 / 4) = (k : ℚ) * (1 / 10)) ∧
      |quantizeQty (some (1 / 10)) (-7 / 4)| = ⌊|(-7 : ℚ) / 4| / (1 / 10)⌋ * (1 / 10) ∧
      |quantizeQty (some (1 / 10)) (-7 / 4)| ≤ |(-7 : ℚ) / 4| ∧
      (0 < (-7 : ℚ) / 4 → 0 ≤ quantizeQty (some (1 / 10)) (-7 / 4)) ∧
      ((-7 : ℚ) / 4 < 0 → quantizeQty (some (1 / 10)) (-7 / 4) ≤ 0) ∧
      quantizeQty none ((-7 : ℚ) / 4) = -7 / 4) :=
  ⟨by norm_num, C8_quantize_multiple_truncation_sign (1 / 10) (-7 / 4) (by norm_num)⟩


lemma sum_map_div (l : List ℝ) (c : ℝ) : (l.map (fun x => x / c)).sum = l.sum / c := by
  induction l with
  | nil => simp
  | cons a t ih => simp [ih, add_div]

lemma mem_zip_map {α β : Type} (f : α → β) (l : List α) (pr : α × β)
    (h : pr ∈ l.zip (l.map f)) : pr.2 = f pr.1 := by
  induction l with
  | nil => simp [List.zip] at h
  | cons a t ih =>
    rw [List.map_cons, List.zip_cons_cons] at h
    rcases List.mem_cons.1 h with h1 | h1
    · rw [h1]
    · exact ih h1

lemma invVolScore_nonneg (closes : List ℚ) : 0 ≤ invVolScore closes := by
  unfold invVolScore
  rcases h : rollingStdLast closes with _ | v
  · exact le_refl 0
  · show (0 : ℝ) ≤ if 0 < v then 1 / v else 0
    by_cases hv : 0 < v
    · rw [if_pos hv]
      positivity
    · rw [if_neg hv]

lemma invVolScore_zero (closes : List ℚ)
    (h : rollingStdLast closes = none ∨ rollingStdLast closes = some 0) :
    invVolScore closes = 0 := by
  unfold invVolScore
  rcases h with h | h <;> rw [h]
  show (if (0 : ℝ) < 0 then 1 / (0 : ℝ) else 0) = 0
  rw [if_neg (lt_irrefl (0 : ℝ))]

lemma calculate_weight_eq_map (hs : List (List ℚ)) :
    calculate_weight hs =
      hs.map (fun c => if 0 < invVolTotal hs then invVolScore c / invVolTotal hs else 0) := by
  rw [calculate_weight, List.map_map]
  rfl

lemma pct_change_length (closes : List ℚ) : (pct_change closes).length = closes.length := by
  cases closes with
  | nil => rfl
  | cons a t => simp [pct_change]

lemma rollingStdLast_short (closes : List ℚ) (h : closes.length < 21) :
    rollingStdLast closes = none := by
  rcases Nat.lt_or_ge closes.length 20 with hlt | hge
  · rw [rollingStdLast, if_pos (by rw [pct_change_length]; exact hlt)]
  · have h20 : closes.length = 20 := by omega
    cases closes with
    | nil => simp at h20
    | cons a t =>
      have hlen : (pct_change (a :: t)).length = 20 := by rw [pct_change_length, h20]
      rw [rollingStdLast, if_neg (by rw [hlen]; exact lt_irrefl 20), hlen]
      have hdrop : (pct_change (a :: t)).drop (20 - 20) = pct_change (a :: t) := by
        simp
      rw [hdrop]
      rw [if_neg (by simp [pct_change])]

/-- Claim C4: for every family of price histories, the weight vector has
no negative entry (and, being a total function into `ℝ`, no `NaN`),
sums to exactly `1` when the sum of inverse-volatility scores is
positive and is all zeros when that sum is zero; an asset whose trailing
volatility is zero or undefined — in particular one with fewer than 21
closes — receives weight zero. -/
theorem C4_calculate_weight_guarantees (hs : List (List ℚ)) :
    (∀ w ∈ calculate_weight hs, 0 ≤ w) ∧
    (0 < invVolTotal hs → (calculate_weight hs).sum = 1) ∧
    (invVolTotal hs = 0 → ∀ w ∈ calculate_weight hs, w = 0) ∧
    (∀ pr ∈ hs.zip (calculate_weight hs),
      rollingStdLast pr.1 = none ∨ rollingStdLast pr.1 = some 0 → pr.2 = 0) ∧
    (∀ pr ∈ hs.zip (calculate_weight hs), pr.1.length < 21 → pr.2 = 0) := by
  have hzip : ∀ pr ∈ hs.zip (calculate_weight hs),
      pr.2 = if 0 < invVolTotal hs then invVolScore pr.1 / invVolTotal hs else 0 := by
    intro pr hpr
    rw [calculate_weight_eq_map] at hpr
    exact mem_zip_map _ hs pr hpr
  refine ⟨?_, ?_, ?_, ?_, ?_⟩
  · intro w hw
    rw [calculate_weight_eq_map] at hw
    obtain ⟨c, _, rfl⟩ := List.mem_map.1 hw
    show (0 : ℝ) ≤ if 0 < invVolTotal hs then invVolScore c / invVolTotal hs else 0
    by_cases ht : 0 < invVolTotal hs
    · rw [if_pos ht]
      exact div_nonneg (invVolScore_nonneg c) ht.le
    · rw [if_neg ht]
  · intro ht
    rw [calculate_weight]
    simp only [if_pos ht]
    rw [sum_map_div]
    exact div_self (ne_of_gt ht)
  · intro h0 w hw
    rw [calculate_weight_eq_map] at hw
    obtain ⟨c, _, rfl⟩ := List.mem_map.1 hw
    show (if 0 < invVolTotal hs then invVolScore c / invVolTotal hs else 0) = 0
    rw [if_neg (by rw [h0]; exact lt_irrefl 0)]
  · intro pr hpr hvol
    rw [hzip pr hpr, invVolScore_zero pr.1 hvol]
    by_cases ht : 0 < invVolTotal hs
    · rw [if_pos ht, zero_div]
    · rw [if_neg ht]
  · intro pr hpr hlen
    rw [hzip pr hpr, invVolScore_zero pr.1 (Or.inl (rollingStdLast_short pr.1 hlen))]
    by_cases ht : 0 < invVolTotal hs
    · rw [if_pos ht, zero_div]
    · rw [if_neg ht]

lemma closesW_window :
    ((pct_change closesW).drop ((pct_change closesW).length - 20)).reduceOption =
      [1/2, -1/2, 3/10, -3/10, 1/5, -1/5, 0, 0, 0, 0, 0, 0, 0, 0, 0, 0, 0, 0, 0, 0] := by
  norm_num [closesW, pct_change, List.replicate, List.zip, List.zipWith, List.reduceOption,
    List.filterMap]

lemma closesW_std : rollingStdLast closesW = some (1 / 5 : ℝ) := by
  rw [rollingStdLast,
    if_neg (by norm_num [closesW, pct_change, List.replicate, List.zip, List.zipWith]),
    if_pos (by norm_num [closesW, pct_change, List.replicate, List.zip, List.zipWith,
      List.all]),
    closesW_window]
  have hv : sampleVar
      [1/2, -1/2, 3/10, -3/10, 1/5, -1/5, 0, 0, 0, 0, 0, 0, 0, 0, 0, 0, 0, 0, 0, 0] =
      1 / 25 := by
    norm_num [sampleVar]
  rw [hv]
  have h2 : ((1 / 25 : ℚ) : ℝ) = (1 / 5 : ℝ) ^ 2 := by norm_num
  rw [h2, Real.sqrt_sq (by norm_num : (0 : ℝ) ≤ 1 / 5)]

lemma invVolTotal_closesW : invVolTotal [closesW] = 5 := by
  rw [invVolTotal]
  have hscore : invVolScore closesW = 5 := by
    rw [invVolScore, closesW_std]
    norm_num
  simp [hscore]

/-- Witness for C4: the single-asset family `[closesW]` has inverse
volatility `5 > 0` and its weight vector sums to exactly `1`. -/
theorem C4_witness : (calculate_weight [closesW]).sum = 1 :=
  (C4_calculate_weight_guarantees [closesW]).2.1
    (by rw [invVolTotal_closesW]; norm_num)


lemma sellRecTickers_append (l l' : List Ev) :
    sellRecTickers (l ++ l') = sellRecTickers l ++ sellRecTickers l' := by
  simp [sellRecTickers]

lemma buyRecTickers_append (l l' : List Ev) :
    buyRecTickers (l ++ l') = buyRecTickers l ++ buyRecTickers l' := by
  simp [buyRecTickers]

lemma sellRecTickers_map (ids : List String) :
    sellRecTickers (ids.map Ev.reconcileSell) = ids := by
  induction ids with
  | nil => rfl
  | cons t ts ih => simp [sellRecTickers] at ih ⊢; exact ih

lemma sellFold_tr (fills : String → Fill) (pv : ℚ) (ids : List String) (st : LoopSt) :
    (ids.foldl (reconcileSellStep fills pv) st).tr = st.tr ++ ids.map Ev.reconcileSell := by
  induction ids generalizing st with
  | nil => simp
  | cons t ts ih =>
    rw [List.foldl_cons, ih]
    simp [reconcileSellStep]

lemma sellFold_cash (fills : String → Fill) (pv : ℚ) (ids : List String) (st : LoopSt) :
    (ids.foldl (reconcileSellStep fills pv) st).cash =
      st.cash + (ids.map (fun t => (fills t).executed * (fills t).price - (fills t).fee)).sum := by
  induction ids generalizing st with
  | nil => simp
  | cons t ts ih =>
    rw [List.foldl_cons, ih]
    simp [reconcileSellStep]
    ring

lemma sellFold_qtys (fills : String → Fill) (pv : ℚ) (ids : List String) (st : LoopSt)
    (a : String) :
    (ids.foldl (reconcileSellStep fills pv) st).qtys a =
      st.qtys a -
        ((ids.filter (fun t => a = assetOf t)).map (fun t => (fills t).executed)).sum := by
  induction ids generalizing st with
  | nil => simp
  | cons t ts ih =>
    rw [List.foldl_cons, ih]
    by_cases ha : a = assetOf t
    · simp [reconcileSellStep, upd, ha]
      ring
    · simp [reconcileSellStep, upd, ha]

lemma sellFold_recs (fills : String → Fill) (pv : ℚ) (ids : List String) (st : LoopSt) :
    ∀ r ∈ (ids.foldl (reconcileSellStep fills pv) st).recs,
      r ∈ st.recs ∨ (r.action = "SELL" ∧ r.ticker ∈ ids) := by
  induction ids generalizing st with
  | nil => simp
  | cons t ts ih =>
    intro r hr
    rw [List.foldl_cons] at hr
    rcases ih (reconcileSellStep fills pv st t) r hr with h | h
    · simp only [reconcileSellStep] at h
      rcases List.mem_append.1 h with h2 | h2
      · exact Or.inl h2
      · right
        simp only [List.mem_singleton] at h2
        subst h2
        exact ⟨rfl, List.mem_cons_self t ts⟩
    · exact Or.inr ⟨h.1, List.mem_cons_of_mem t h.2⟩


lemma ORDER_UNITS_pos (a : String) (u : ℚ) (h : ORDER_UNITS a = some u) : 0 < u := by
  unfold ORDER_UNITS at h
  split_ifs at h
  · rw [← Option.some.inj h]; norm_num
  · rw [← Option.some.inj h]; norm_num
  · rw [← Option.some.inj h]; norm_num

lemma gtp_nonneg (p : ℚ) (hp : 0 ≤ p) : 0 ≤ get_tick_price p := by
  obtain ⟨hb, he⟩ := bandTick_pos_gtp_eq p
  rw [he]
  exact tickFloor_nonneg p _ hp hb

lemma buy_cap_bound (cash tp u qty : ℚ) (hu : 0 < u) (htp : 0 ≤ tp) (hq : 0 < qty)
    (hcap : qty ≤ ⌊cash / (1 + FEE_RATE) / tp / u⌋ * u) :
    qty * tp * (1 + FEE_RATE) ≤ cash := by
  have hfee : (0 : ℚ) < 1 + FEE_RATE := by norm_num [FEE_RATE]
  have hfl1 : (0 : ℚ) < (⌊cash / (1 + FEE_RATE) / tp / u⌋ : ℚ) * u := lt_of_lt_of_le hq hcap
  have hfl2 : (0 : ℚ) < (⌊cash / (1 + FEE_RATE) / tp / u⌋ : ℚ) := by
    rcases mul_pos_iff.1 hfl1 with ⟨h, _⟩ | ⟨_, h⟩
    · exact h
    · exact absurd hu (asymm h)
  have hfl3 : (1 : ℤ) ≤ ⌊cash / (1 + FEE_RATE) / tp / u⌋ := by
    have : (0 : ℤ) < ⌊cash / (1 + FEE_RATE) / tp / u⌋ := by exact_mod_cast hfl2
    omega
  have hz1 : (1 : ℚ) ≤ cash / (1 + FEE_RATE) / tp / u := by
    calc (1 : ℚ) = ((1 : ℤ) : ℚ) := by norm_num
      _ ≤ cash / (1 + FEE_RATE) / tp / u := Int.le_floor.1 hfl3
  have htp_pos : 0 < tp := by
    rcases htp.lt_or_eq with h | h
    · exact h
    · rw [← h, div_zero, zero_div] at hz1
      norm_num at hz1
  have hq_le : qty ≤ cash / (1 + FEE_RATE) / tp := by
    calc qty ≤ (⌊cash / (1 + FEE_RATE) / tp / u⌋ : ℚ) * u := hcap
      _ ≤ cash / (1 + FEE_RATE) / tp / u * u :=
        mul_le_mul_of_nonneg_right (Int.floor_le _) hu.le
      _ = cash / (1 + FEE_RATE) / tp := div_mul_cancel₀ _ hu.ne'
  have h2 : qty * tp ≤ cash / (1 + FEE_RATE) := by
    calc qty * tp ≤ cash / (1 + FEE_RATE) / tp * tp :=
        mul_le_mul_of_nonneg_right hq_le htp_pos.le
      _ = cash / (1 + FEE_RATE) := div_mul_cancel₀ _ htp_pos.ne'
  calc qty * tp * (1 + FEE_RATE) ≤ cash / (1 + FEE_RATE) * (1 + FEE_RATE) :=
      mul_le_mul_of_nonneg_right h2 hfee.le
    _ = cash := div_mul_cancel₀ _ hfee.ne'


lemma upd_apply (f : String → ℚ) (k : String) (v : ℚ) (x : String) :
    upd f k v x = if x = k then v else f x := rfl

lemma SubmitBuyOk_mono (prices : String → ℚ) (act : Action) (acts : List Action) (e : Ev)
    (h : SubmitBuyOk prices acts e) : SubmitBuyOk prices (act :: acts) e := by
  intro t qty n c he
  obtain ⟨a, ha, rest⟩ := h t qty n c he
  exact ⟨a, List.mem_cons_of_mem act ha, rest⟩

lemma buyFold_spec (prices : String → ℚ) (fills : String → Fill) (pv : ℚ) (acts : List Action)
    (st : LoopSt) (hacts : ∀ act ∈ acts, act.asset = assetOf act.ticker) :
    ∃ blocks : List (List Ev),
      (acts.foldl (buyStep prices fills pv) st).tr = st.tr ++ blocks.flatten ∧
      (∀ b ∈ blocks,
        b = [] ∨ (∃ t qty n c, b = [Ev.submitBuy t qty n c] ∧ (fills t).ok = false) ∨
        (∃ t qty n c, b = [Ev.submitBuy t qty n c, Ev.pollBuy t, Ev.reconcileBuy t] ∧
          (fills t).ok = true)) ∧
      (∀ e ∈ blocks.flatten, SubmitBuyOk prices acts e) ∧
      (acts.foldl (buyStep prices fills pv) st).cash = st.cash -
        ((buyRecTickers blocks.flatten).map
          (fun t => (fills t).executed * (fills t).price + (fills t).fee)).sum ∧
      (∀ a, (acts.foldl (buyStep prices fills pv) st).qtys a = st.qtys a +
        (((buyRecTickers blocks.flatten).filter (fun t => a = assetOf t)).map
          (fun t => (fills t).executed)).sum) ∧
      (∀ r ∈ (acts.foldl (buyStep prices fills pv) st).recs,
        r ∈ st.recs ∨ (r.action = "BUY" ∧ ∃ act ∈ acts, r.ticker = act.ticker)) ∧
      sellRecTickers blocks.flatten = [] := by
  induction acts generalizing st with
  | nil =>
    exact ⟨[], by simp, by simp, by simp, by simp [buyRecTickers],
      by simp [buyRecTickers], by simp, by simp [sellRecTickers]⟩
  | cons act acts ih =>
    have hacts1 : act.asset = assetOf act.ticker := hacts act (List.mem_cons_self act acts)
    have hacts' : ∀ a ∈ acts, a.asset = assetOf a.ticker :=
      fun a ha => hacts a (List.mem_cons_of_mem act ha)
    rw [List.foldl_cons]
    by_cases hpos : 0 < act.diff_qty
    · rcases hunit : ORDER_UNITS act.asset with _ | u
      · have hstep : buyStep prices fills pv st act = st := by
          rw [buyStep, if_pos hpos, hunit]
        rw [hstep]
        obtain ⟨blocks, h1, h2, h3, h4, h5, h6, h7⟩ := ih st hacts'
        exact ⟨blocks, h1, h2, fun e he => SubmitBuyOk_mono prices act acts e (h3 e he),
          h4, h5,
          fun r hr => (h6 r hr).imp id
            (fun hh => ⟨hh.1, (hh.2).imp (fun a hha => ⟨List.mem_cons_of_mem act hha.1, hha.2⟩)⟩),
          h7⟩
      · have hu : 0 < u := ORDER_UNITS_pos act.asset u hunit
        have hstep : buyStep prices fills pv st act =
            (if (if (⌊st.cash / (1 + FEE_RATE) / get_tick_price (prices act.ticker) / u⌋ : ℚ) * u < act.diff_qty then (⌊st.cash / (1 + FEE_RATE) / get_tick_price (prices act.ticker) / u⌋ : ℚ) * u else act.diff_qty) ≤ 0 then st
             else if (fills act.ticker).ok then { qtys := upd st.qtys act.asset (st.qtys act.asset + (fills act.ticker).executed), cash := st.cash - ((fills act.ticker).executed * (fills act.ticker).price + (fills act.ticker).fee), recs := st.recs ++ [{ ticker := act.ticker, action := "BUY", price := (fills act.ticker).price, qty := (fills act.ticker).executed, fee := (fills act.ticker).fee, cash_after := st.cash - ((fills act.ticker).executed * (fills act.ticker).price + (fills act.ticker).fee), pv := pv }], tr := st.tr ++ [Ev.submitBuy act.ticker (if (⌊st.cash / (1 + FEE_RATE) / get_tick_price (prices act.ticker) / u⌋ : ℚ) * u < act.diff_qty then (⌊st.cash / (1 + FEE_RATE) / get_tick_price (prices act.ticker) / u⌋ : ℚ) * u else act.diff_qty) (pyInt ((if (⌊st.cash / (1 + FEE_RATE) / get_tick_price (prices act.ticker) / u⌋ : ℚ) * u < act.diff_qty then (⌊st.cash / (1 + FEE_RATE) / get_tick_price (prices act.ticker) / u⌋ : ℚ) * u else act.diff_qty) * get_tick_price (prices act.ticker))) st.cash, Ev.pollBuy act.ticker, Ev.reconcileBuy act.ticker] }
             else { st with tr := st.tr ++ [Ev.submitBuy act.ticker (if (⌊st.cash / (1 + FEE_RATE) / get_tick_price (prices act.ticker) / u⌋ : ℚ) * u < act.diff_qty then (⌊st.cash / (1 + FEE_RATE) / get_tick_price (prices act.ticker) / u⌋ : ℚ) * u else act.diff_qty) (pyInt ((if (⌊st.cash / (1 + FEE_RATE) / get_tick_price (prices act.ticker) / u⌋ : ℚ) * u < act.diff_qty then (⌊st.cash / (1 + FEE_RATE) / get_tick_price (prices act.ticker) / u⌋ : ℚ) * u else act.diff_qty) * get_tick_price (prices act.ticker))) st.cash] }) := by
          rw [buyStep, if_pos hpos, hunit]
        set tp := get_tick_price (prices act.ticker) with htp
        set mq : ℚ := (⌊st.cash / (1 + FEE_RATE) / tp / u⌋ : ℚ) * u with hmq
        set qv : ℚ := if mq < act.diff_qty then mq else act.diff_qty with hqv
        rw [hstep]
        by_cases hq0 : qv ≤ 0
        · rw [if_pos hq0]
          obtain ⟨blocks, h1, h2, h3, h4, h5, h6, h7⟩ := ih st hacts'
          exact ⟨blocks, h1, h2, fun e he => SubmitBuyOk_mono prices act acts e (h3 e he),
            h4, h5,
            fun r hr => (h6 r hr).imp id
              (fun hh => ⟨hh.1, (hh.2).imp (fun a hha => ⟨List.mem_cons_of_mem act hha.1, hha.2⟩)⟩),
            h7⟩
        · rw [if_neg hq0]
          have hqpos : 0 < qv := not_le.1 hq0
          have hqcap : qv ≤ mq := by
            rw [hqv]
            by_cases hcl : mq < act.diff_qty
            · rw [if_pos hcl]
            · rw [if_neg hcl]
              exact le_of_not_lt hcl
          have hqdiff : qv ≤ act.diff_qty := by
            rw [hqv]
            by_cases hcl : mq < act.diff_qty
            · rw [if_pos hcl]
              exact hcl.le
            · rw [if_neg hcl]
          have hbound : 0 ≤ tp → qv * tp * (1 + FEE_RATE) ≤ st.cash := fun htp0 =>
            buy_cap_bound st.cash tp u qv hu htp0 hqpos (by rw [hmq] at hqcap; exact hqcap)
          have hsubok : SubmitBuyOk prices (act :: acts)
              (Ev.submitBuy act.ticker qv (pyInt (qv * tp)) st.cash) := by
            intro t qty n c he
            injection he with ht hqty hn hc
            subst ht
            subst hqty
            subst hn
            subst hc
            exact ⟨act, List.mem_cons_self act acts, rfl, u, hunit, hqpos, hqdiff,
              by rw [hmq] at hqcap; exact hqcap, rfl, hbound⟩
          by_cases hok : (fills act.ticker).ok = true
          · rw [if_pos hok]
            obtain ⟨blocks, h1, h2, h3, h4, h5, h6, h7⟩ := ih _ hacts'
            refine ⟨[Ev.submitBuy act.ticker qv (pyInt (qv * tp)) st.cash,
                Ev.pollBuy act.ticker, Ev.reconcileBuy act.ticker] :: blocks,
                ?_, ?_, ?_, ?_, ?_, ?_, ?_⟩
            · rw [h1]
              dsimp only
              rw [List.flatten_cons, ← List.append_assoc]
            · intro b hb
              rcases List.mem_cons.1 hb with hb | hb
              · exact Or.inr (Or.inr ⟨act.ticker, qv, pyInt (qv * tp), st.cash, hb, hok⟩)
              · exact h2 b hb
            · intro e he
              rw [List.flatten_cons] at he
              rcases List.mem_append.1 he with he | he
              · simp only [List.mem_cons, List.not_mem_nil, or_false] at he
                rcases he with he | he | he
                · rw [he]
                  exact hsubok
                · rw [he]
                  intro t qty n c hcontra
                  exact Ev.noConfusion hcontra
                · rw [he]
                  intro t qty n c hcontra
                  exact Ev.noConfusion hcontra
              · exact SubmitBuyOk_mono prices act acts e (h3 e he)
            · rw [h4]
              dsimp only
              rw [List.flatten_cons, buyRecTickers_append]
              have hhd : buyRecTickers [Ev.submitBuy act.ticker qv (pyInt (qv * tp)) st.cash,
                  Ev.pollBuy act.ticker, Ev.reconcileBuy act.ticker] = [act.ticker] := rfl
              rw [hhd]
              simp
              ring
            · intro a
              rw [h5 a]
              dsimp only
              rw [List.flatten_cons, buyRecTickers_append]
              have hhd : buyRecTickers [Ev.submitBuy act.ticker qv (pyInt (qv * tp)) st.cash,
                  Ev.pollBuy act.ticker, Ev.reconcileBuy act.ticker] = [act.ticker] := rfl
              rw [hhd]
              by_cases ha : a = assetOf act.ticker
              · rw [upd_apply, if_pos (by rw [hacts1]; exact ha)]
                simp [ha, hacts1]
                ring
              · rw [upd_apply, if_neg (by rw [hacts1]; exact ha)]
                simp [ha]
            · intro r hr
              rcases h6 r hr with hh | hh
              · dsimp only at hh
                rcases List.mem_append.1 hh with hh2 | hh2
                · exact Or.inl hh2
                · right
                  rw [List.mem_singleton.1 hh2]
                  exact ⟨rfl, act, List.mem_cons_self act acts, rfl⟩
              · exact Or.inr ⟨hh.1, (hh.2).imp (fun a hha => ⟨List.mem_cons_of_mem act hha.1, hha.2⟩)⟩
            · rw [List.flatten_cons, sellRecTickers_append, h7]
              rfl
          · rw [if_neg hok]
            obtain ⟨blocks, h1, h2, h3, h4, h5, h6, h7⟩ := ih _ hacts'
            refine ⟨[Ev.submitBuy act.ticker qv (pyInt (qv * tp)) st.cash] :: blocks,
              ?_, ?_, ?_, ?_, ?_, ?_, ?_⟩
            · rw [h1]
              dsimp only
              rw [List.flatten_cons, ← List.append_assoc]
            · intro b hb
              rcases List.mem_cons.1 hb with hb | hb
              · exact Or.inr (Or.inl ⟨act.ticker, qv, pyInt (qv * tp), st.cash, hb,
                  Bool.not_eq_true _ ▸ hok⟩)
              · exact h2 b hb
            · intro e he
              rw [List.flatten_cons] at he
              rcases List.mem_append.1 he with he | he
              · rw [List.mem_singleton.1 he]
                exact hsubok
              · exact SubmitBuyOk_mono prices act acts e (h3 e he)
            · have hhd : buyRecTickers
                  [Ev.submitBuy act.ticker qv (pyInt (qv * tp)) st.cash] = [] := rfl
              rw [List.flatten_cons, buyRecTickers_append, hhd, List.nil_append, h4]
            · intro a
              have hhd : buyRecTickers
                  [Ev.submitBuy act.ticker qv (pyInt (qv * tp)) st.cash] = [] := rfl
              rw [List.flatten_cons, buyRecTickers_append, hhd, List.nil_append, h5 a]
            · intro r hr
              rcases h6 r hr with hh | hh
              · exact Or.inl hh
              · exact Or.inr ⟨hh.1, (hh.2).imp (fun a hha => ⟨List.mem_cons_of_mem act hha.1, hha.2⟩)⟩
            · rw [List.flatten_cons, sellRecTickers_append, h7]
              rfl
    · have hstep : buyStep prices fills pv st act = st := by
        rw [buyStep, if_neg hpos]
      rw [hstep]
      obtain ⟨blocks, h1, h2, h3, h4, h5, h6, h7⟩ := ih st hacts'
      exact ⟨blocks, h1, h2, fun e he => SubmitBuyOk_mono prices act acts e (h3 e he),
        h4, h5,
        fun r hr => (h6 r hr).imp id
          (fun hh => ⟨hh.1, (hh.2).imp (fun a hha => ⟨List.mem_cons_of_mem act hha.1, hha.2⟩)⟩),
        h7⟩


lemma rebalance_trace_eq (i : RebInput) :
    (rebalance i).trace =
      ((rebActs i).foldl (buyStep i.prices i.fills (rebPV i)) (rebAfterSell i)).tr := rfl

lemma rebalance_cash_eq (i : RebInput) :
    (rebalance i).cash =
      ((rebActs i).foldl (buyStep i.prices i.fills (rebPV i)) (rebAfterSell i)).cash := rfl

lemma rebalance_qtys_eq (i : RebInput) :
    (rebalance i).qtys =
      ((rebActs i).foldl (buyStep i.prices i.fills (rebPV i)) (rebAfterSell i)).qtys := rfl

lemma rebalance_records_eq (i : RebInput) :
    (rebalance i).records =
      ((rebActs i).foldl (buyStep i.prices i.fills (rebPV i)) (rebAfterSell i)).recs := rfl

lemma computeActions_mem (q : String → ℚ) (pvv : ℚ) (pr w : String → ℚ) (act : Action)
    (h : act ∈ computeActions q pvv pr w) :
    ∃ t ∈ TICKERS, ¬|diffKRW q pvv pr w t| < MIN_ORDER ∧
      act = { ticker := t, asset := assetOf t,
              diff_qty := quantizeQty (ORDER_UNITS (assetOf t))
                (rawQty (diffKRW q pvv pr w t) (get_tick_price (pr t))),
              diff_krw := diffKRW q pvv pr w t } := by
  obtain ⟨t, ht, hpt⟩ := List.mem_filterMap.1 h
  by_cases hskip : |diffKRW q pvv pr w t| < MIN_ORDER
  · rw [planTicker, if_pos hskip] at hpt
    cases hpt
  · rw [planTicker, if_neg hskip] at hpt
    exact ⟨t, ht, hskip, (Option.some.inj hpt).symm⟩

lemma computeActions_asset (q : String → ℚ) (pvv : ℚ) (pr w : String → ℚ) :
    ∀ act ∈ computeActions q pvv pr w, act.asset = assetOf act.ticker := by
  intro act h
  obtain ⟨t, _, _, hact⟩ := computeActions_mem q pvv pr w act h
  rw [hact]

lemma mem_skipEvents (q : String → ℚ) (pvv : ℚ) (pr w : String → ℚ) (e : Ev)
    (h : e ∈ skipEvents q pvv pr w) :
    ∃ t ∈ TICKERS, |diffKRW q pvv pr w t| < MIN_ORDER ∧ e = Ev.skipPrint t := by
  obtain ⟨t, ht, hpt⟩ := List.mem_filterMap.1 h
  by_cases hs : |diffKRW q pvv pr w t| < MIN_ORDER
  · rw [if_pos hs] at hpt
    exact ⟨t, ht, hs, (Option.some.inj hpt).symm⟩
  · rw [if_neg hs] at hpt
    cases hpt

lemma skipEvents_mem_of (q : String → ℚ) (pvv : ℚ) (pr w : String → ℚ) (t : String)
    (ht : t ∈ TICKERS) (hs : |diffKRW q pvv pr w t| < MIN_ORDER) :
    Ev.skipPrint t ∈ skipEvents q pvv pr w := by
  refine List.mem_filterMap.2 ⟨t, ht, ?_⟩
  rw [if_pos hs]

lemma mem_sellSubmitEvents (acts : List Action) (e : Ev) (h : e ∈ sellSubmitEvents acts) :
    ∃ act ∈ acts, act.diff_qty < 0 ∧ e = Ev.submitSell act.ticker |act.diff_qty| := by
  obtain ⟨a, ha, he⟩ := List.mem_map.1 h
  have hf := List.mem_filter.1 ha
  exact ⟨a, hf.1, by simpa using hf.2, he.symm⟩

lemma sellSubmitEvents_mem_of (acts : List Action) (act : Action) (ha : act ∈ acts)
    (hneg : act.diff_qty < 0) :
    Ev.submitSell act.ticker |act.diff_qty| ∈ sellSubmitEvents acts :=
  List.mem_map.2 ⟨act, List.mem_filter.2 ⟨ha, by simpa using hneg⟩, rfl⟩

lemma mem_sellIds (fills : String → Fill) (acts : List Action) (t : String)
    (h : t ∈ sellIds fills acts) :
    ∃ act ∈ acts, act.diff_qty < 0 ∧ act.ticker = t ∧ (fills t).ok = true := by
  obtain ⟨a, ha, hpt⟩ := List.mem_filterMap.1 h
  have hf := List.mem_filter.1 ha
  by_cases hk : (fills a.ticker).ok
  · rw [if_pos hk] at hpt
    have := Option.some.inj hpt
    exact ⟨a, hf.1, by simpa using hf.2, this, this ▸ hk⟩
  · rw [if_neg hk] at hpt
    cases hpt

lemma sellIds_mem_of (fills : String → Fill) (acts : List Action) (act : Action)
    (ha : act ∈ acts) (hneg : act.diff_qty < 0) (hk : (fills act.ticker).ok = true) :
    act.ticker ∈ sellIds fills acts := by
  refine List.mem_filterMap.2 ⟨act, List.mem_filter.2 ⟨ha, by simpa using hneg⟩, ?_⟩
  rw [if_pos hk]

lemma mem_tr0 (i : RebInput) (e : Ev) (h : e ∈ rebTr0 i) :
    (∃ t, e = Ev.skipPrint t) ∨ (∃ t v, e = Ev.submitSell t v) ∨ ∃ t, e = Ev.pollSell t := by
  rcases List.mem_append.1 h with h2 | h2
  · rcases List.mem_append.1 h2 with h3 | h3
    · obtain ⟨t, _, _, he⟩ := mem_skipEvents _ _ _ _ e h3
      exact Or.inl ⟨t, he⟩
    · obtain ⟨a, _, _, he⟩ := mem_sellSubmitEvents _ e h3
      exact Or.inr (Or.inl ⟨a.ticker, |a.diff_qty|, he⟩)
  · obtain ⟨t, _, he⟩ := List.mem_map.1 h2
    exact Or.inr (Or.inr ⟨t, he.symm⟩)

lemma sellRecTickers_nil (l : List Ev) (h : ∀ t, Ev.reconcileSell t ∉ l) :
    sellRecTickers l = [] := by
  rw [sellRecTickers, List.filterMap_eq_nil]
  intro e he
  cases e with
  | reconcileSell t => exact absurd he (h t)
  | skipPrint t => rfl
  | submitSell t v => rfl
  | pollSell t => rfl
  | submitBuy t q n c => rfl
  | pollBuy t => rfl
  | reconcileBuy t => rfl
  | saveState => rfl

lemma buyRecTickers_nil (l : List Ev) (h : ∀ t, Ev.reconcileBuy t ∉ l) :
    buyRecTickers l = [] := by
  rw [buyRecTickers, List.filterMap_eq_nil]
  intro e he
  cases e with
  | reconcileBuy t => exact absurd he (h t)
  | skipPrint t => rfl
  | submitSell t v => rfl
  | pollSell t => rfl
  | submitBuy t q n c => rfl
  | pollBuy t => rfl
  | reconcileSell t => rfl
  | saveState => rfl

lemma sellRecTickers_tr0 (i : RebInput) : sellRecTickers (rebTr0 i) = [] := by
  refine sellRecTickers_nil _ (fun t ht => ?_)
  rcases mem_tr0 i _ ht with ⟨t2, he⟩ | ⟨t2, v, he⟩ | ⟨t2, he⟩ <;> cases he

lemma buyRecTickers_tr0 (i : RebInput) : buyRecTickers (rebTr0 i) = [] := by
  refine buyRecTickers_nil _ (fun t ht => ?_)
  rcases mem_tr0 i _ ht with ⟨t2, he⟩ | ⟨t2, v, he⟩ | ⟨t2, he⟩ <;> cases he

lemma buyRecTickers_map_sell (ids : List String) :
    buyRecTickers (ids.map Ev.reconcileSell) = [] := by
  refine buyRecTickers_nil _ (fun t ht => ?_)
  obtain ⟨t2, _, he⟩ := List.mem_map.1 ht
  cases he


lemma rebAfterSell_tr (i : RebInput) :
    (rebAfterSell i).tr = rebTr0 i ++ (rebIds i).map Ev.reconcileSell :=
  sellFold_tr i.fills (rebPV i) (rebIds i) (rebSt0 i)

lemma rebalance_struct (i : RebInput) :
    ∃ blocks : List (List Ev),
      (rebalance i).trace = (rebTr0 i ++ (rebIds i).map Ev.reconcileSell) ++ blocks.flatten ∧
      (∀ b ∈ blocks,
        b = [] ∨ (∃ t q n c, b = [Ev.submitBuy t q n c] ∧ (i.fills t).ok = false) ∨
        (∃ t q n c, b = [Ev.submitBuy t q n c, Ev.pollBuy t, Ev.reconcileBuy t] ∧
          (i.fills t).ok = true)) ∧
      (∀ e ∈ blocks.flatten, SubmitBuyOk i.prices (rebActs i) e) ∧
      (rebalance i).cash = i.state "KRW" +
        ((rebIds i).map
          (fun t => (i.fills t).executed * (i.fills t).price - (i.fills t).fee)).sum -
        ((buyRecTickers blocks.flatten).map
          (fun t => (i.fills t).executed * (i.fills t).price + (i.fills t).fee)).sum ∧
      (∀ a, (rebalance i).qtys a = quantities0 i.state a -
        (((rebIds i).filter (fun t => a = assetOf t)).map
          (fun t => (i.fills t).executed)).sum +
        (((buyRecTickers blocks.flatten).filter (fun t => a = assetOf t)).map
          (fun t => (i.fills t).executed)).sum) ∧
      (∀ r ∈ (rebalance i).records,
        (r.action = "SELL" ∧ r.ticker ∈ rebIds i) ∨
        (r.action = "BUY" ∧ ∃ act ∈ rebActs i, r.ticker = act.ticker)) ∧
      sellRecTickers blocks.flatten = [] := by
  obtain ⟨blocks, h1, h2, h3, h4, h5, h6, h7⟩ :=
    buyFold_spec i.prices i.fills (rebPV i) (rebActs i) (rebAfterSell i)
      (computeActions_asset _ _ _ _)
  refine ⟨blocks, ?_, h2, h3, ?_, ?_, ?_, h7⟩
  · rw [rebalance_trace_eq, h1, rebAfterSell_tr]
  · rw [rebalance_cash_eq, h4, rebAfterSell]
    rw [sellFold_cash]
    rfl
  · intro a
    rw [rebalance_qtys_eq, h5 a, rebAfterSell]
    rw [sellFold_qtys]
    have h0 : (rebSt0 i).qtys a = quantities0 i.state a := rfl
    rw [h0]
  · intro r hr
    rw [rebalance_records_eq] at hr
    rcases h6 r hr with hh | hh
    · rw [rebAfterSell] at hh
      rcases sellFold_recs i.fills (rebPV i) (rebIds i) (rebSt0 i) r hh with hh2 | hh2
      · cases hh2
      · exact Or.inl hh2
    · exact Or.inr hh


lemma saveState_not_in_trace (i : RebInput) : Ev.saveState ∉ (rebalance i).trace := by
  obtain ⟨blocks, htr, hb, _, _, _, _, _⟩ := rebalance_struct i
  intro h
  rw [htr] at h
  rcases List.mem_append.1 h with h2 | h2
  · rcases List.mem_append.1 h2 with h3 | h3
    · rcases mem_tr0 i _ h3 with ⟨t2, he⟩ | ⟨t2, v2, he⟩ | ⟨t2, he⟩ <;> cases he
    · obtain ⟨t2, _, he⟩ := List.mem_map.1 h3
      cases he
  · obtain ⟨b, hbmem, hin⟩ := List.mem_flatten.1 h2
    rcases hb b hbmem with h4 | ⟨t, q, n, c, h4, _⟩ | ⟨t, q, n, c, h4, _⟩ <;> rw [h4] at hin
    · cases hin
    · rw [List.mem_singleton] at hin
      cases hin
    · simp only [List.mem_cons, List.not_mem_nil, or_false] at hin
      rcases hin with he | he | he <;> cases he

/-- Claim C1: every buy submission in a cycle carries a positive
quantity (a non-positive possibly-capped quantity is skipped with no
submission), is clamped to the budget cap
`⌊(cash / (1 + feeRate)) / tickPrice / lotIncrement⌋ * lotIncrement`
recomputed from the cash available at its own submission time, and its
fee-grossed notional `qty * tickPrice * (1 + feeRate)` never exceeds
that cash. -/
theorem C1_buy_capped_to_available_cash (i : RebInput) (hpr : ∀ t, 0 ≤ i.prices t) :
    ∀ e ∈ (rebalance i).trace, ∀ t qty n c, e = Ev.submitBuy t qty n c →
      0 < qty ∧
      (∃ act ∈ rebActs i, act.ticker = t ∧ ∃ u, ORDER_UNITS act.asset = some u ∧
        qty ≤ act.diff_qty ∧
        qty ≤ ⌊c / (1 + FEE_RATE) / get_tick_price (i.prices t) / u⌋ * u) ∧
      qty * get_tick_price (i.prices t) * (1 + FEE_RATE) ≤ c := by
  obtain ⟨blocks, htr, _, hp, _, _, _, _⟩ := rebalance_struct i
  intro e he t qty n c hesub
  rw [htr] at he
  rcases List.mem_append.1 he with h2 | h2
  · rcases List.mem_append.1 h2 with h3 | h3
    · rcases mem_tr0 i e h3 with ⟨t2, he2⟩ | ⟨t2, v2, he2⟩ | ⟨t2, he2⟩ <;>
        rw [he2] at hesub <;> cases hesub
    · obtain ⟨t2, _, he2⟩ := List.mem_map.1 h3
      rw [← he2] at hesub
      cases hesub
  · obtain ⟨act, hactmem, hticker, u, hunit, hqpos, hqdiff, hcap, hn, hbound⟩ :=
      hp e h2 t qty n c hesub
    exact ⟨hqpos, ⟨act, hactmem, hticker, u, hunit, hqdiff, hcap⟩,
      hbound (gtp_nonneg _ (hpr t))⟩

/-- Claim C2: the cycle's trace is a prefix containing no buy
submission — in which every sell action has been submitted, polled to a
terminal state, and reconciled — followed by the serialized buy phase,
a concatenation of complete per-buy blocks `[submit, poll, reconcile]`,
so each buy is polled and reconciled before the next buy is
submitted. -/
theorem C2_sells_before_buys_serialized (i : RebInput)
    (hok : ∀ t, (i.fills t).ok = true) :
    ∃ pre blocks,
      (rebalance i).trace = pre ++ List.flatten blocks ∧
      (∀ e ∈ pre, ∀ t qty n c, e ≠ Ev.submitBuy t qty n c) ∧
      (∀ act ∈ rebActs i, act.diff_qty < 0 →
        Ev.submitSell act.ticker |act.diff_qty| ∈ pre ∧
        Ev.pollSell act.ticker ∈ pre ∧ Ev.reconcileSell act.ticker ∈ pre) ∧
      (∀ b ∈ blocks, b = [] ∨ ∃ t qty n c,
        b = [Ev.submitBuy t qty n c, Ev.pollBuy t, Ev.reconcileBuy t]) := by
  obtain ⟨blocks, htr, hb, _, _, _, _, _⟩ := rebalance_struct i
  refine ⟨rebTr0 i ++ (rebIds i).map Ev.reconcileSell, blocks, htr, ?_, ?_, ?_⟩
  · intro e he t qty n c
    rcases List.mem_append.1 he with h2 | h2
    · rcases mem_tr0 i e h2 with ⟨t2, he2⟩ | ⟨t2, v2, he2⟩ | ⟨t2, he2⟩ <;> rw [he2] <;>
        exact fun hc => Ev.noConfusion hc
    · obtain ⟨t2, _, he2⟩ := List.mem_map.1 h2
      rw [← he2]
      exact fun hc => Ev.noConfusion hc
  · intro act hact hneg
    have hid : act.ticker ∈ rebIds i :=
      sellIds_mem_of i.fills (rebActs i) act hact hneg (hok act.ticker)
    refine ⟨?_, ?_, ?_⟩
    · exact List.mem_append_left _ (List.mem_append_left _
        (List.mem_append_right _ (sellSubmitEvents_mem_of (rebActs i) act hact hneg)))
    · exact List.mem_append_left _ (List.mem_append_right _
        (List.mem_map.2 ⟨act.ticker, hid, rfl⟩))
    · exact List.mem_append_right _ (List.mem_map.2 ⟨act.ticker, hid, rfl⟩)
  · intro b hbmem
    rcases hb b hbmem with h | ⟨t, q, n, c, hbeq, hfalse⟩ | ⟨t, q, n, c, hbeq, _⟩
    · exact Or.inl h
    · rw [hok t] at hfalse
      cases hfalse
    · exact Or.inr ⟨t, q, n, c, hbeq⟩

/-- Witness for C2 at the concrete input `inC1`, whose fill oracle
always returns a handle. -/
theorem C2_witness :
    ∃ pre blocks,
      (rebalance inC1).trace = pre ++ List.flatten blocks ∧
      (∀ e ∈ pre, ∀ t qty n c, e ≠ Ev.submitBuy t qty n c) ∧
      (∀ act ∈ rebActs inC1, act.diff_qty < 0 →
        Ev.submitSell act.ticker |act.diff_qty| ∈ pre ∧
        Ev.pollSell act.ticker ∈ pre ∧ Ev.reconcileSell act.ticker ∈ pre) ∧
      (∀ b ∈ blocks, b = [] ∨ ∃ t qty n c,
        b = [Ev.submitBuy t qty n c, Ev.pollBuy t, Ev.reconcileBuy t]) :=
  C2_sells_before_buys_serialized inC1 (fun _ => rfl)

/-- Claim C5: the cycle's final cash and holdings are determined solely
by the executed fill data (`executed_volume`, `price`, `paid_fee`) of
the reconciled orders — never by the planned quantity or price: each
reconciled sell contributes `executed * price - fee` to cash and
`-executed` to its asset's holding; each reconciled buy contributes
`-(executed * price + fee)` to cash and `+executed` to its asset's
holding. -/
theorem C5_reconcile_from_fills_only (i : RebInput) :
    (rebalance i).cash = i.state "KRW" +
      ((sellRecTickers (rebalance i).trace).map
        (fun t => (i.fills t).executed * (i.fills t).price - (i.fills t).fee)).sum -
      ((buyRecTickers (rebalance i).trace).map
        (fun t => (i.fills t).executed * (i.fills t).price + (i.fills t).fee)).sum ∧
    ∀ a, (rebalance i).qtys a = quantities0 i.state a -
      (((sellRecTickers (rebalance i).trace).filter (fun t => a = assetOf t)).map
        (fun t => (i.fills t).executed)).sum +
      (((buyRecTickers (rebalance i).trace).filter (fun t => a = assetOf t)).map
        (fun t => (i.fills t).executed)).sum := by
  obtain ⟨blocks, htr, hb, hp, hcash, hqtys, hrecs, hnosell⟩ := rebalance_struct i
  have hsell : sellRecTickers (rebalance i).trace = rebIds i := by
    rw [htr, sellRecTickers_append, sellRecTickers_append, sellRecTickers_tr0,
      sellRecTickers_map, hnosell, List.nil_append, List.append_nil]
  have hbuy : buyRecTickers (rebalance i).trace = buyRecTickers blocks.flatten := by
    rw [htr, buyRecTickers_append, buyRecTickers_append, buyRecTickers_tr0,
      buyRecTickers_map_sell, List.nil_append, List.nil_append]
  rw [hsell, hbuy]
  exact ⟨hcash, hqtys⟩

/-- Counterexample for C6: `load_state` rebuilds balances from the
exchange accounts API and ignores the state file, so saving a state
mapping `"KRW" ↦ 7` and reloading yields the API balance `5`, not `7`;
and a full rebalance cycle emits no `save_state` call at all. -/
theorem C6_counterexample :
    load_state (save_state ⟨none, [⟨"KRW", 5⟩]⟩ [("KRW", 7)]) "KRW" = 5 ∧
    (5 : ℚ) ≠ 7 ∧
    (rebalance inC6).trace.count Ev.saveState = 0 := by
  refine ⟨?_, by norm_num, List.count_eq_zero.2 (saveState_not_in_trace inC6)⟩
  simp [load_state, save_state, upd]

/-- Claim C6 as amended: `rebalance` never persists the portfolio state
(no `save_state` call in any cycle), and since `load_state` reads the
exchange accounts rather than the state file, saving any state first
does not change what `load_state` returns. -/
theorem C6_save_unused_load_from_api (w : ExtWorld) (s : List (String × ℚ)) (i : RebInput) :
    load_state (save_state w s) = load_state w ∧
    (rebalance i).trace.count Ev.saveState = 0 :=
  ⟨rfl, List.count_eq_zero.2 (saveState_not_in_trace i)⟩


lemma assetOf_BTC : assetOf "KRW-BTC" = "BTC" := by decide

lemma assetOf_XRP : assetOf "KRW-XRP" = "XRP" := by decide

lemma assetOf_MANA : assetOf "KRW-MANA" = "MANA" := by decide

lemma sBB : ("KRW-BTC" : String) ≠ "KRW-XRP" := by decide

lemma sBM : ("KRW-BTC" : String) ≠ "KRW-MANA" := by decide

lemma sXB : ("KRW-XRP" : String) ≠ "KRW-BTC" := by decide

lemma sXM : ("KRW-XRP" : String) ≠ "KRW-MANA" := by decide

lemma sMB : ("KRW-MANA" : String) ≠ "KRW-BTC" := by decide

lemma sMX : ("KRW-MANA" : String) ≠ "KRW-XRP" := by decide

lemma aBX : ("BTC" : String) ≠ "XRP" := by decide

lemma aBM : ("BTC" : String) ≠ "MANA" := by decide

lemma aXB : ("XRP" : String) ≠ "BTC" := by decide

lemma aXM : ("XRP" : String) ≠ "MANA" := by decide

lemma aMB : ("MANA" : String) ≠ "BTC" := by decide

lemma aMX : ("MANA" : String) ≠ "XRP" := by decide

lemma kB : ("KRW-BTC" : String) ≠ "KRW" := by decide

lemma kX : ("KRW-XRP" : String) ≠ "KRW" := by decide

lemma kM : ("KRW-MANA" : String) ≠ "KRW" := by decide

lemma kRB : ("KRW" : String) ≠ "KRW-BTC" := by decide

lemma kRX : ("KRW" : String) ≠ "KRW-XRP" := by decide

lemma kRM : ("KRW" : String) ≠ "KRW-MANA" := by decide

lemma inC1_trace_eval :
    (rebalance inC1).trace =
      [Ev.skipPrint "KRW-XRP", Ev.skipPrint "KRW-MANA",
       Ev.submitBuy "KRW-BTC" (4997501249 / 500000) 999500 1000000,
       Ev.pollBuy "KRW-BTC", Ev.reconcileBuy "KRW-BTC"] := by
  norm_num [inC1, rebalance, rebPV, rebActs, rebIds, rebTr0, rebSt0, rebAfterSell, quantities0,
    portfolio_value, portfolio_value_tick, computeActions, planTicker, skipEvents,
    sellSubmitEvents, sellIds, diffKRW, rawQty, quantizeQty, ORDER_UNITS, TICKERS,
    assetOf_BTC, assetOf_XRP, assetOf_MANA, get_tick_price, tickFloor, MIN_ORDER,
    FEE_RATE, pyInt, buyStep, reconcileSellStep, upd, sBB, sBM, sXB, sXM, sMB, sMX,
    aBX, aBM, aXB, aXM, aMB, aMX, kB, kX, kM, kRB, kRX, kRM, List.filterMap, List.find?, List.filter]

/-- Witness for C1 at the concrete input `inC1`: the BTC buy is capped
to `9995.002498` and its fee-grossed notional stays within the one
million KRW cash. -/
theorem C1_witness :
    (0 : ℚ) < 4997501249 / 500000 ∧
    (4997501249 / 500000 : ℚ) * get_tick_price (inC1.prices "KRW-BTC") *
      (1 + FEE_RATE) ≤ 1000000 := by
  have hpr : ∀ t, 0 ≤ inC1.prices t := by
    intro t
    dsimp only [inC1]
    split_ifs <;> norm_num
  have hmem : Ev.submitBuy "KRW-BTC" (4997501249 / 500000) 999500 1000000 ∈
      (rebalance inC1).trace := by
    rw [inC1_trace_eval]
    simp
  have h := C1_buy_capped_to_available_cash inC1 hpr
    (Ev.submitBuy "KRW-BTC" (4997501249 / 500000) 999500 1000000) hmem
    "KRW-BTC" (4997501249 / 500000) 999500 1000000 rfl
  exact ⟨h.1, h.2.2⟩

lemma inC3_acts_eval :
    rebActs inC3 =
      [{ ticker := "KRW-BTC", asset := "BTC", diff_qty := 100, diff_krw := 10000 }] := by
  norm_num [inC3, rebalance, rebPV, rebActs, rebIds, rebTr0, rebSt0, rebAfterSell, quantities0,
    portfolio_value, portfolio_value_tick, computeActions, planTicker, skipEvents,
    sellSubmitEvents, sellIds, diffKRW, rawQty, quantizeQty, ORDER_UNITS, TICKERS,
    assetOf_BTC, assetOf_XRP, assetOf_MANA, get_tick_price, tickFloor, MIN_ORDER,
    FEE_RATE, pyInt, buyStep, reconcileSellStep, upd, sBB, sBM, sXB, sXM, sMB, sMX,
    aBX, aBM, aXB, aXM, aMB, aMX, kB, kX, kM, kRB, kRX, kRM, List.filterMap, List.find?, List.filter]

/-- Counterexample for C3: at `inC3` the planner's raw quantity is
`deltaKRW / tickAdjustedPrice = 100` with no fee-grossing, whereas the
claimed formula `(deltaKRW / (1 - feeRate)) / tickAdjustedPrice` would
quantize to `100.050025`. -/
theorem C3_counterexample :
    rebActs inC3 =
      [{ ticker := "KRW-BTC", asset := "BTC", diff_qty := 100, diff_krw := 10000 }] ∧
    ¬(100 : ℚ) = quantizeQty (ORDER_UNITS "BTC")
      (rawQtySpec 10000 (get_tick_price (inC3.prices "KRW-BTC"))) := by
  refine ⟨inC3_acts_eval, ?_⟩
  norm_num [inC3, rawQtySpec, quantizeQty, ORDER_UNITS, get_tick_price, tickFloor, FEE_RATE]
  rw [abs_of_pos (by norm_num : (0 : ℚ) < 200000 / 1999)]
  norm_num

/-- Claim C3 as amended: the planner does not fee-gross; for every
asset passing the minimum-order filter the raw quantity is
`deltaKRW / tickAdjustedPrice` (the sign carried by `deltaKRW`), which
is then lot-quantized. -/
theorem C3_raw_qty_no_fee_grossing (i : RebInput) :
    ∀ act ∈ rebActs i,
      act.diff_qty = quantizeQty (ORDER_UNITS (assetOf act.ticker))
        (rawQty act.diff_krw (get_tick_price (i.prices act.ticker))) ∧
      act.diff_krw = diffKRW (quantities0 i.state) (rebPV i) i.prices i.weights act.ticker := by
  intro act h
  obtain ⟨t, _, _, hact⟩ := computeActions_mem _ _ _ _ act h
  rw [hact]
  exact ⟨rfl, rfl⟩

/-- Witness for C3 at the concrete input `inC3`: the single planned
action has quantity `quantizeQty (diff / price)` with `diff = 10000`,
`price = 100`. -/
theorem C3_witness :
    (100 : ℚ) = quantizeQty (ORDER_UNITS (assetOf "KRW-BTC"))
      (rawQty 10000 (get_tick_price (inC3.prices "KRW-BTC"))) ∧
    (10000 : ℚ) =
      diffKRW (quantities0 inC3.state) (rebPV inC3) inC3.prices inC3.weights "KRW-BTC" :=
  C3_raw_qty_no_fee_grossing inC3
    { ticker := "KRW-BTC", asset := "BTC", diff_qty := 100, diff_krw := 10000 }
    (by rw [inC3_acts_eval]; exact List.mem_singleton.2 rfl)

lemma inC7_diff_XRP :
    diffKRW (quantities0 inC7.state) (rebPV inC7) inC7.prices inC7.weights "KRW-XRP" =
      3000 := by
  norm_num [inC7, rebalance, rebPV, rebActs, rebIds, rebTr0, rebSt0, rebAfterSell, quantities0,
    portfolio_value, portfolio_value_tick, computeActions, planTicker, skipEvents,
    sellSubmitEvents, sellIds, diffKRW, rawQty, quantizeQty, ORDER_UNITS, TICKERS,
    assetOf_BTC, assetOf_XRP, assetOf_MANA, get_tick_price, tickFloor, MIN_ORDER,
    FEE_RATE, pyInt, buyStep, reconcileSellStep, upd, sBB, sBM, sXB, sXM, sMB, sMX,
    aBX, aBM, aXB, aXM, aMB, aMX, kB, kX, kM, kRB, kRX, kRM, List.filterMap, List.find?, List.filter]

lemma inC7_records_eval :
    (rebalance inC7).records =
      [{ ticker := "KRW-BTC", action := "BUY", price := 3, qty := 1, fee := 2,
         cash_after := 99995, pv := 100000 }] := by
  norm_num [inC7, rebalance, rebPV, rebActs, rebIds, rebTr0, rebSt0, rebAfterSell, quantities0,
    portfolio_value, portfolio_value_tick, computeActions, planTicker, skipEvents,
    sellSubmitEvents, sellIds, diffKRW, rawQty, quantizeQty, ORDER_UNITS, TICKERS,
    assetOf_BTC, assetOf_XRP, assetOf_MANA, get_tick_price, tickFloor, MIN_ORDER,
    FEE_RATE, pyInt, buyStep, reconcileSellStep, upd, sBB, sBM, sXB, sXM, sMB, sMX,
    aBX, aBM, aXB, aXM, aMB, aMX, kB, kX, kM, kRB, kRX, kRM, List.filterMap, List.find?, List.filter]

/-- Counterexample for C7: at `inC7` the XRP delta is `3000 < 5000`, so
XRP is skipped — but the cycle's ledger records contain no HOLD entry
and no XRP entry at all, only the executed BTC buy. -/
theorem C7_counterexample :
    |diffKRW (quantities0 inC7.state) (rebPV inC7) inC7.prices inC7.weights "KRW-XRP"| <
      MIN_ORDER ∧
    (rebalance inC7).records =
      [{ ticker := "KRW-BTC", action := "BUY", price := 3, qty := 1, fee := 2,
         cash_after := 99995, pv := 100000 }] ∧
    ("KRW-BTC" : String) ≠ "KRW-XRP" ∧ ("BUY" : String) ≠ "HOLD" := by
  refine ⟨?_, inC7_records_eval, by decide, by decide⟩
  rw [inC7_diff_XRP]
  norm_num [MIN_ORDER]

/-- Claim C7 as amended: an asset whose `|deltaKRW|` is below the
minimum order value yields no action, no sell or buy submission, and no
ledger record; the skip is only printed to the console (the `skipPrint`
event). -/
theorem C7_min_order_skip_no_record (i : RebInput) (t : String) (ht : t ∈ TICKERS)
    (hskip : |diffKRW (quantities0 i.state) (rebPV i) i.prices i.weights t| < MIN_ORDER) :
    (∀ act ∈ rebActs i, act.ticker ≠ t) ∧
    Ev.skipPrint t ∈ (rebalance i).trace ∧
    (∀ e ∈ (rebalance i).trace,
      (∀ v, e ≠ Ev.submitSell t v) ∧ ∀ qty n c, e ≠ Ev.submitBuy t qty n c) ∧
    (∀ r ∈ (rebalance i).records, r.ticker ≠ t) := by
  have hnoact : ∀ act ∈ rebActs i, act.ticker ≠ t := by
    intro act hact heq
    obtain ⟨t2, _, hns, hacteq⟩ := computeActions_mem _ _ _ _ act hact
    rw [hacteq] at heq
    have heq2 : t2 = t := heq
    exact hns (heq2 ▸ hskip)
  obtain ⟨blocks, htr, hb, hp, _, _, hrecs, _⟩ := rebalance_struct i
  refine ⟨hnoact, ?_, ?_, ?_⟩
  · rw [htr]
    exact List.mem_append_left _ (List.mem_append_left _ (List.mem_append_left _
      (List.mem_append_left _ (skipEvents_mem_of _ _ _ _ t ht hskip))))
  · intro e he
    rw [htr] at he
    constructor
    · intro v heq
      rcases List.mem_append.1 he with h2 | h2
      · rcases List.mem_append.1 h2 with h3 | h3
        · rcases List.mem_append.1 h3 with h4 | h4
          · rcases List.mem_append.1 h4 with h5 | h5
            · obtain ⟨t2, _, _, he2⟩ := mem_skipEvents _ _ _ _ e h5
              rw [he2] at heq
              cases heq
            · obtain ⟨act, hactmem, _, he2⟩ := mem_sellSubmitEvents _ e h5
              rw [he2] at heq
              injection heq with h6 _
              exact hnoact act hactmem h6
          · obtain ⟨t2, _, he2⟩ := List.mem_map.1 h4
            rw [← he2] at heq
            cases heq
        · obtain ⟨t2, _, he2⟩ := List.mem_map.1 h3
          rw [← he2] at heq
          cases heq
      · obtain ⟨b, hbmem, hin⟩ := List.mem_flatten.1 h2
        rcases hb b hbmem with h4 | ⟨t2, q2, n2, c2, h4, _⟩ | ⟨t2, q2, n2, c2, h4, _⟩ <;>
          rw [h4] at hin
        · cases hin
        · rw [List.mem_singleton.1 hin] at heq
          cases heq
        · simp only [List.mem_cons, List.not_mem_nil, or_false] at hin
          rcases hin with he2 | he2 | he2 <;> rw [he2] at heq <;> cases heq
    · intro qty n c heq
      rcases List.mem_append.1 he with h2 | h2
      · rcases List.mem_append.1 h2 with h3 | h3
        · rcases List.mem_append.1 h3 with h4 | h4
          · rcases List.mem_append.1 h4 with h5 | h5
            · obtain ⟨t2, _, _, he2⟩ := mem_skipEvents _ _ _ _ e h5
              rw [he2] at heq
              cases heq
            · obtain ⟨act, hactmem, _, he2⟩ := mem_sellSubmitEvents _ e h5
              rw [he2] at heq
              cases heq
          · obtain ⟨t2, _, he2⟩ := List.mem_map.1 h4
            rw [← he2] at heq
            cases heq
        · obtain ⟨t2, _, he2⟩ := List.mem_map.1 h3
          rw [← he2] at heq
          cases heq
      · obtain ⟨act, hactmem, hticker, _⟩ := hp e h2 t qty n c heq
        exact hnoact act hactmem hticker
  · intro r hr
    rcases hrecs r hr with ⟨_, hid⟩ | ⟨_, act, hactmem, heq⟩
    · obtain ⟨act, hactmem, _, heqt, _⟩ := mem_sellIds i.fills (rebActs i) r.ticker hid
      exact fun h => hnoact act hactmem (heqt.trans h)
    · exact fun h => hnoact act hactmem (heq.symm.trans h)

/-- Witness for C7 at the concrete input `inC7`: the XRP skip produces
a console skip line. -/
theorem C7_witness : Ev.skipPrint "KRW-XRP" ∈ (rebalance inC7).trace :=
  (C7_min_order_skip_no_record inC7 "KRW-XRP" (by decide)
    (by rw [inC7_diff_XRP]; norm_num [MIN_ORDER])).2.1

/-- Counterexample for C9: at `inC9` (one BTC held at raw price 150.05)
the portfolio value computed by the cycle uses the raw price — it is
`150.05`, not the tick-adjusted `150` that a consistently tick-adjusted
valuation (`portfolio_value_tick`, the spec's wording) would give. -/
theorem C9_counterexample :
    portfolio_value (quantities0 inC9.state) (inC9.state "KRW") inC9.prices = 3001 / 20 ∧
    portfolio_value_tick (quantities0 inC9.state) (inC9.state "KRW") inC9.prices = 150 ∧
    (3001 / 20 : ℚ) ≠ 150 := by
  refine ⟨?_, ?_, by norm_num⟩ <;> norm_num [inC9, rebalance, rebPV, rebActs, rebIds, rebTr0, rebSt0, rebAfterSell, quantities0,
    portfolio_value, portfolio_value_tick, computeActions, planTicker, skipEvents,
    sellSubmitEvents, sellIds, diffKRW, rawQty, quantizeQty, ORDER_UNITS, TICKERS,
    assetOf_BTC, assetOf_XRP, assetOf_MANA, get_tick_price, tickFloor, MIN_ORDER,
    FEE_RATE, pyInt, buyStep, reconcileSellStep, upd, sBB, sBM, sXB, sXM, sMB, sMX,
    aBX, aBM, aXB, aXM, aMB, aMX, kB, kX, kM, kRB, kRX, kRM, List.filterMap, List.find?, List.filter]

/-- Claim C9 as amended: the portfolio value is computed from the raw
live prices, while the per-asset current value entering `deltaKRW`, the
quantity sizing, the buy budget cap and the submitted buy notional all
use the same tick-adjusted price `get_tick_price (prices t)`. -/
theorem C9_tick_price_consistency (i : RebInput) :
    portfolio_value (quantities0 i.state) (i.state "KRW") i.prices =
      i.state "KRW" +
        (TICKERS.map (fun t => quantities0 i.state (assetOf t) * i.prices t)).sum ∧
    (∀ act ∈ rebActs i,
      act.diff_krw = rebPV i * i.weights act.ticker -
        quantities0 i.state (assetOf act.ticker) * get_tick_price (i.prices act.ticker) ∧
      act.diff_qty = quantizeQty (ORDER_UNITS (assetOf act.ticker))
        (rawQty act.diff_krw (get_tick_price (i.prices act.ticker)))) ∧
    (∀ e ∈ (rebalance i).trace, ∀ t qty n c, e = Ev.submitBuy t qty n c →
      n = pyInt (qty * get_tick_price (i.prices t)) ∧
      ∃ u, ORDER_UNITS (assetOf t) = some u ∧
        qty ≤ ⌊c / (1 + FEE_RATE) / get_tick_price (i.prices t) / u⌋ * u) := by
  obtain ⟨blocks, htr, hb, hp, _, _, _, _⟩ := rebalance_struct i
  refine ⟨rfl, ?_, ?_⟩
  · intro act h
    obtain ⟨t, _, _, hact⟩ := computeActions_mem _ _ _ _ act h
    rw [hact]
    exact ⟨rfl, rfl⟩
  · intro e he t qty n c heq
    rw [htr] at he
    rcases List.mem_append.1 he with h2 | h2
    · rcases List.mem_append.1 h2 with h3 | h3
      · rcases mem_tr0 i e h3 with ⟨t2, he2⟩ | ⟨t2, v2, he2⟩ | ⟨t2, he2⟩ <;>
          rw [he2] at heq <;> cases heq
      · obtain ⟨t2, _, he2⟩ := List.mem_map.1 h3
        rw [← he2] at heq
        cases heq
    · obtain ⟨act, hactmem, hticker, u, hunit, _, _, hcap, hn, _⟩ := hp e h2 t qty n c heq
      have hasset : act.asset = assetOf act.ticker :=
        computeActions_asset _ _ _ _ act hactmem
      rw [hasset, hticker] at hunit
      exact ⟨hn, u, hunit, hcap⟩

end VolTrade
